import Mathlib

/-!
Shallow embedding of the debot-engine session interpreter
(src/dengine.rs and src/routines.rs).

External collaborators (the ton client call service, the browser front
end, serde_json parsing, base64, the chrono date formatter and the
low-level message codec) are modelled as oracle fields of an `Env`
record; the parts of the repository that are not among the two source
files (action.rs, context.rs, the routine registry) are modelled from
the specification and carry a doc comment saying so.

Rust `panic!`/`unwrap()` on `None`/`Err` is modelled by the `RRes.panic`
(resp. `Option` = `none`) outcome; fallible functions return an
error-or-value outcome exactly where the source returns `Result`.
-/

/-- JSON values as manipulated through serde_json by the engine
(the engine only ever builds or reads integral numbers). -/
inductive Json where
  | null
  | bool (b : Bool)
  | num (n : Int)
  | str (s : String)
  | arr (elems : List Json)
  | obj (fields : List (String × Json))

/-- serde_json `value[key]` read access: field of an object (first
binding wins), `Null` when the key is missing or the value is not an
object. -/
def Json.get : Json → String → Json
  | .obj fields, key => (fields.lookup key).getD .null
  | _, _ => .null

/-- serde_json `as_str`. -/
def Json.asStr : Json → Option String
  | .str s => some s
  | _ => none

/-- serde_json `as_i64`: an integral number fitting in a signed 64-bit
machine word. -/
def Json.asInt : Json → Option Int
  | .num n => if -(2 ^ 63) ≤ n ∧ n < 2 ^ 63 then some n else none
  | _ => none

/-- serde_json `as_array`. -/
def Json.asArr : Json → Option (List Json)
  | .arr xs => some xs
  | _ => none

/-- A JSON number holding a `u8` (used for context and action ids). -/
def Json.asU8 : Json → Option Nat
  | .num n => if 0 ≤ n ∧ n < 256 then some n.toNat else none
  | _ => none

/-- Is this `Value::Null`? (serde_json `is_null`). -/
def Json.isNull : Json → Bool
  | .null => true
  | _ => false

/-- One lowercase hex digit (used when rendering `\u00XX` escapes and
by `hex::encode`). -/
def hexDigitChar (n : Nat) : Char :=
  if n < 10 then Char.ofNat (48 + n) else Char.ofNat (87 + n % 16)

/-- Two lowercase hex digits of a byte. -/
def hexByte (n : Nat) : String :=
  String.mk [hexDigitChar (n / 16 % 16), hexDigitChar (n % 16)]

/-- serde_json string escaping (quote, backslash, and control
characters; the engine only ever logs the rendered text). -/
def escapeChar (c : Char) : String :=
  if c = '"' then "\\\""
  else if c = '\\' then "\\\\"
  else if c = '\n' then "\\n"
  else if c = '\r' then "\\r"
  else if c = '\t' then "\\t"
  else if c.toNat < 32 then "\\u00" ++ hexByte c.toNat
  else String.singleton c

mutual

/-- serde_json compact rendering (`Value::to_string` / `Display`),
used by the source only to build log lines and stringified arguments. -/
def Json.render : Json → String
  | .null => "null"
  | .bool true => "true"
  | .bool false => "false"
  | .num n => toString n
  | .str s => "\"" ++ String.join (s.data.map escapeChar) ++ "\""
  | .arr xs => "[" ++ renderElems xs ++ "]"
  | .obj fs => "\x7b" ++ renderFields fs ++ "\x7d"

/-- Comma-separated rendering of array elements. -/
def renderElems : List Json → String
  | [] => ""
  | [x] => Json.render x
  | x :: xs => Json.render x ++ "," ++ renderElems xs

/-- Comma-separated rendering of object fields. -/
def renderFields : List (String × Json) → String
  | [] => ""
  | [(k, v)] => "\"" ++ String.join (k.data.map escapeChar) ++ "\":" ++ Json.render v
  | (k, v) :: fs =>
      "\"" ++ String.join (k.data.map escapeChar) ++ "\":" ++ Json.render v ++ "," ++ renderFields fs

end

/-- serde_json `value[key] = v` on an object under construction
(replaces the first binding of the key, else appends). -/
def objSet : List (String × Json) → String → Json → List (String × Json)
  | [], key, v => [(key, v)]
  | (k, w) :: fs, key, v =>
      if k = key then (k, v) :: fs else (k, w) :: objSet fs key v

/-- The numeric value of one hexadecimal digit (both cases), as accepted
by Rust `from_str_radix(_, 16)` and by the `hex` crate. -/
def hexVal? (c : Char) : Option Nat :=
  if '0' ≤ c ∧ c ≤ '9' then some (c.toNat - 48)
  else if 'a' ≤ c ∧ c ≤ 'f' then some (c.toNat - 87)
  else if 'A' ≤ c ∧ c ≤ 'F' then some (c.toNat - 55)
  else none

/-- Parse a nonempty all-hex-digit run to its value (no sign, no bound). -/
def parseHexDigits : List Char → Option Nat
  | [] => none
  | [c] => hexVal? c
  | c :: rest => do
      let hd ← hexVal? c
      let tl ← parseHexDigits rest
      pure (hd * 16 ^ rest.length + tl)

/-- Rust `uN::from_str_radix(s, 16)`: an optional leading `+`, then a
nonempty run of hex digits; errors (here `none`) on anything else and on
overflow past `bound`. -/
def parseHexBounded (bound : Nat) (s : List Char) : Option Nat :=
  let digits := match s with
    | '+' :: rest => rest
    | l => l
  match parseHexDigits digits with
  | some v => if v < bound then some v else none
  | none => none

/-- Rust `str::trim_start_matches("0x")`: strip every leading `0x`. -/
def trim0x : List Char → List Char
  | '0' :: 'x' :: rest => trim0x rest
  | l => l

/-- Model of `hex::decode`: even number of hex digits to bytes, error otherwise. -/
def hexDecode : List Char → Option (List Nat)
  | [] => some []
  | [_] => none
  | a :: b :: rest => do
      let hi ← hexVal? a
      let lo ← hexVal? b
      let tl ← hexDecode rest
      pure ((hi * 16 + lo) :: tl)

/-- Model of `hex::encode` of a byte list. -/
def hexEncode (bytes : List Nat) : String :=
  String.join (bytes.map hexByte)

/-- UTF-8 encoding of one Unicode scalar value (`str::as_bytes`). -/
def utf8EncodeChar (n : Nat) : List Nat :=
  if n < 0x80 then [n]
  else if n < 0x800 then [0xC0 + n / 64, 0x80 + n % 64]
  else if n < 0x10000 then [0xE0 + n / 4096, 0x80 + n / 64 % 64, 0x80 + n % 64]
  else [0xF0 + n / 262144, 0x80 + n / 4096 % 64, 0x80 + n / 64 % 64, 0x80 + n % 64]

/-- Model of `str::as_bytes`: the UTF-8 bytes of a string. -/
def utf8Encode (s : String) : List Nat :=
  s.data.flatMap (fun c => utf8EncodeChar c.toNat)

/-- Is `b` a UTF-8 continuation byte in `[lo, hi]`? -/
def contByte (lo hi b : Nat) : Bool :=
  lo ≤ b && b ≤ hi

/-- Strict UTF-8 decoding (`String::from_utf8`): rejects overlong forms,
surrogates and out-of-range scalars exactly as Rust does. -/
def utf8Decode : List Nat → Option (List Char)
  | [] => some []
  | b0 :: rest =>
    if b0 < 0x80 then
      (utf8Decode rest).map (fun cs => Char.ofNat b0 :: cs)
    else if 0xC2 ≤ b0 && b0 ≤ 0xDF then
      match rest with
      | b1 :: rest' =>
        if contByte 0x80 0xBF b1 then
          (utf8Decode rest').map (fun cs => Char.ofNat ((b0 - 0xC0) * 64 + (b1 - 0x80)) :: cs)
        else none
      | _ => none
    else if 0xE0 ≤ b0 && b0 ≤ 0xEF then
      match rest with
      | b1 :: b2 :: rest' =>
        let lo1 := if b0 = 0xE0 then 0xA0 else 0x80
        let hi1 := if b0 = 0xED then 0x9F else 0xBF
        if contByte lo1 hi1 b1 && contByte 0x80 0xBF b2 then
          (utf8Decode rest').map (fun cs =>
            Char.ofNat ((b0 - 0xE0) * 4096 + (b1 - 0x80) * 64 + (b2 - 0x80)) :: cs)
        else none
      | _ => none
    else if 0xF0 ≤ b0 && b0 ≤ 0xF4 then
      match rest with
      | b1 :: b2 :: b3 :: rest' =>
        let lo1 := if b0 = 0xF0 then 0x90 else 0x80
        let hi1 := if b0 = 0xF4 then 0x8F else 0xBF
        if contByte lo1 hi1 b1 && contByte 0x80 0xBF b2 && contByte 0x80 0xBF b3 then
          (utf8Decode rest').map (fun cs =>
            Char.ofNat ((b0 - 0xF0) * 262144 + (b1 - 0x80) * 4096 + (b2 - 0x80) * 64 + (b3 - 0x80)) :: cs)
        else none
      | _ => none
    else none

/-- Rust substring test `haystack.contains(needle)`. -/
def containsSub (hay needle : String) : Bool :=
  go hay.data
where
  /-- Check the needle at every suffix of the haystack. -/
  go : List Char → Bool
  | [] => needle.data.isPrefixOf []
  | c :: rest => needle.data.isPrefixOf (c :: rest) || go rest

/-- Rust `&str::get(n..)` on byte index `n`: drop exactly `n` UTF-8
bytes, `None` when `n` overshoots or falls inside a character. -/
def utf8DropBytes : Nat → List Char → Option (List Char)
  | 0, cs => some cs
  | _ + 1, [] => none
  | n + 1, c :: cs =>
      if c.utf8Size ≤ n + 1 then utf8DropBytes (n + 1 - c.utf8Size) cs
      else none
termination_by structural _n cs => cs

/-! ### routines.rs: template rendering (`format_string` / `format_arg`) -/

/-- Rust `str::split("\x7b\x7d")`: the pieces of the character list
around each non-overlapping occurrence of the two-character placeholder
`\x7b\x7d`, scanned left to right. -/
def splitBB : List Char → List (List Char)
  | [] => [[]]
  | [c] => [[c]]
  | c1 :: c2 :: rest =>
      if c1 = '\x7b' ∧ c2 = '\x7d' then [] :: splitBB rest
      else
        match splitBB (c2 :: rest) with
        | [] => [[c1]]
        | h :: t => (c1 :: h) :: t

/-- Model of `format_arg` (src/routines.rs): resolve the `i`-th placeholder from
the parameter document, trying `param<i>`, `str<i>`, `number<i>`,
`utime<i>` in that order; `none` models a Rust panic (the `unwrap()`
calls on the `number`/`utime` paths). `dateFmt` abstracts the chrono
`Local.timestamp(..).to_rfc2822()` rendering of a nonzero timestamp. -/
def format_arg (dateFmt : Nat → String) (params : Json) (i : Nat) : Option String :=
  let idx := toString i
  match (params.get ("param" ++ idx)).asStr with
  | some arg => some arg
  | none =>
  match (params.get ("str" ++ idx)).asStr with
  | some arg =>
      some (String.mk ((utf8Decode ((hexDecode arg.data).getD [])).getD []))
  | none =>
  match (params.get ("number" ++ idx)).asStr with
  | some arg => do
      let tl ← utf8DropBytes 2 arg.data
      let v ← parseHexBounded (2 ^ 64) tl
      pure (toString v)
  | none =>
  match (params.get ("utime" ++ idx)).asStr with
  | some arg => do
      let tl ← utf8DropBytes 2 arg.data
      let utime ← parseHexBounded (2 ^ 32) tl
      pure (if utime = 0 then "undefined" else dateFmt utime)
  | none => some ""

/-- The pieces of a split template interleaved with the rendered
arguments, in order; `none` as soon as an argument rendering panics. -/
def joinPieces (dateFmt : Nat → String) (params : Json) : Nat → List (List Char) → Option (List Char)
  | _, [] => some []
  | i, p :: rest => do
      let a ← format_arg dateFmt params i
      let tl ← joinPieces dateFmt params (i + 1) rest
      pure (p ++ a.data ++ tl)

/-- Model of `format_string` (src/routines.rs): split the template on the
placeholder `\x7b\x7d` and append the rendering of argument `i` after
the `i`-th piece; `none` models a panic inside `format_arg`. -/
def format_string (dateFmt : Nat → String) (fstr : String) (params : Json) : Option String :=
  (joinPieces dateFmt params 0 (splitBB fstr.data)).map String.mk

/-! ### Data model (contexts, actions, sentinel state ids) -/

/-- Modelled from the spec: the four reserved sentinel state
identifiers, distinct `u8` values outside the range of real context
ids (declared in the repository's context.rs, which is not among the
source files): ZERO is the initial state, EXIT terminates the session,
CURRENT and PREV resolve at transition time. -/
def STATE_ZERO : Nat := 0

/-- Modelled from the spec: the CURRENT sentinel (resolve to the
current state at transition time). -/
def STATE_CURRENT : Nat := 253

/-- Modelled from the spec: the PREV sentinel (resolve to the previous
state at transition time). -/
def STATE_PREV : Nat := 254

/-- Modelled from the spec: the EXIT sentinel (terminate the session). -/
def STATE_EXIT : Nat := 255

/-- The well-known "empty cell" sentinel value of an action's `misc`
attribute (the literal compared against in src/dengine.rs). -/
def emptyCell : String := "te6ccgEBAQEAAgAAAA=="

/-- Modelled from the spec: the closed set of action kinds (declared in
the repository's action.rs, which is not among the source files);
`unsupported` is the catch-all for the `_` arm of `handle_action`. -/
inductive AcType where
  | empty
  | runAction
  | runMethod
  | sendMsg
  | invoke
  | print
  | goto
  | callEngine
  | unsupported
deriving DecidableEq

/-- Modelled from the spec: an action (declared in the repository's
action.rs, which is not among the source files): name, description,
numeric target state `toId` (named `to` in the source, a reserved
token here), kind, opaque `misc` attribute defaulting to
the empty-cell sentinel, and the boolean/optional attributes derived
from its encoded metadata (sign-by-user, instant, engine-call, and the
optional getter / args / format-args function names). -/
structure DAction where
  name : String
  desc : String
  toId : Nat
  actionType : AcType
  misc : String
  signByUser : Bool
  instant : Bool
  engineCall : Bool
  funcAttrVal : Option String
  argsAttrVal : Option String
  formatArgsVal : Option String
deriving DecidableEq

/-- Model of `DAction::is_instant` (action.rs, modelled from the spec). -/
def DAction.is_instant (a : DAction) : Bool := a.instant

/-- Model of `DAction::is_engine_call` (action.rs, modelled from the spec). -/
def DAction.is_engine_call (a : DAction) : Bool := a.engineCall

/-- Model of `DAction::sign_by_user` (action.rs, modelled from the spec). -/
def DAction.sign_by_user (a : DAction) : Bool := a.signByUser

/-- Model of `DAction::func_attr` (action.rs, modelled from the spec). -/
def DAction.func_attr (a : DAction) : Option String := a.funcAttrVal

/-- Model of `DAction::args_attr` (action.rs, modelled from the spec). -/
def DAction.args_attr (a : DAction) : Option String := a.argsAttrVal

/-- Model of `DAction::format_args` (action.rs, modelled from the spec). -/
def DAction.format_args (a : DAction) : Option String := a.formatArgsVal

/-- Modelled from the spec: a context (declared in the repository's
context.rs, which is not among the source files): numeric id,
description, ordered action list. -/
structure DContext where
  id : Nat
  desc : String
  actions : List DAction
deriving DecidableEq

/-- Modelled from the spec: the numeric action-kind tag used by the
serde encoding of actions, in the order the spec lists the kinds;
unknown tags become the catch-all kind. -/
def acTypeOfNat (n : Nat) : AcType :=
  match n with
  | 0 => .empty
  | 1 => .runAction
  | 2 => .runMethod
  | 3 => .sendMsg
  | 4 => .invoke
  | 5 => .print
  | 6 => .goto
  | 7 => .callEngine
  | _ => .unsupported

/-- Modelled from the spec: serde deserialization of one action
(`serde_json::from_value::<DAction>`, via the derive in action.rs which
is not among the source files): an object carrying the action's name,
description, numeric target and kind, the optional `misc` blob
defaulting to the empty-cell sentinel, and its attribute metadata;
anything else fails. -/
def decodeAction (j : Json) : Option DAction :=
  match j with
  | .obj _ => do
      let name ← (j.get "name").asStr
      let desc ← (j.get "desc").asStr
      let toV ← (j.get "to").asU8
      let ty ← (j.get "action_type").asU8
      let misc := ((j.get "misc").asStr).getD emptyCell
      pure
        { name := name
          desc := desc
          toId := toV
          actionType := acTypeOfNat ty
          misc := misc
          signByUser := (j.get "sign_by_user").isNull = false
          instant := (j.get "instant").isNull = false
          engineCall := (j.get "engine_call").isNull = false
          funcAttrVal := (j.get "func").asStr
          argsAttrVal := (j.get "args").asStr
          formatArgsVal := (j.get "format_args").asStr }
  | _ => none

/-- Modelled from the spec: serde deserialization of a list of actions
(`serde_json::from_value::<Vec<DAction>>`); fails unless the value is
an array of well-formed actions (in particular on `Null`, which is what
indexing a missing field yields). -/
def decodeActions (j : Json) : Option (List DAction) :=
  match j with
  | .arr xs => xs.mapM decodeAction
  | _ => none

/-- Modelled from the spec: serde deserialization of one context
(id, description, action list). -/
def decodeContext (j : Json) : Option DContext :=
  match j with
  | .obj _ => do
      let id ← (j.get "id").asU8
      let desc ← (j.get "desc").asStr
      let actions ← decodeActions (j.get "actions")
      pure { id := id, desc := desc, actions := actions }
  | _ => none

/-- Modelled from the spec: serde deserialization of the fetched
context graph (`serde_json::from_value::<Vec<DContext>>` in
`fetch_state`); fails unless the value is an array of well-formed
contexts (in particular on `Null`, which is what indexing a missing
`contexts` field yields). -/
def decodeContexts (j : Json) : Option (List DContext) :=
  match j with
  | .arr xs => xs.mapM decodeContext
  | _ => none

/-- Modelled from the spec: `str_hex_to_utf8` (context.rs, not among
the source files): decode a hex-encoded UTF-8 string to text, `None`
on any decode failure. -/
def str_hex_to_utf8 (s : String) : Option String :=
  (hexDecode s.data).bind (fun bytes => (utf8Decode bytes).map String.mk)

/-! ### External collaborators and engine state -/

/-- A ton client service error (`TonError`): either an inner SDK error
carrying a message, a numeric code and structured data, or any other
error observed only through its display text. -/
inductive SdkErr where
  | innerSdk (message : String) (code : Int) (data : Json)
  | other (text : String)

/-- Model of `ResultOfLocalRun`: decoded output plus, when requested, an updated
account-state snapshot. -/
structure RunOut where
  output : Json
  account : Option Json

/-- An encoded message as handed around by the call service. -/
structure Msg where
  messageBody : List Nat
  messageId : String

/-- The external collaborators, as oracle functions: the call service,
message codec, serde_json / base64 parsers, the chrono date renderer,
the front end's input box, and (modelled from the spec, the registry
not being among the source files) the named-routine registry. -/
structure Env where
  runLocal : String → Option Json → String → String → Json → Bool → Except SdkErr RunOut
  parseAddr : String → Except String String
  parseJson : String → Option Json
  base64Decode : String → Except String (List Nat)
  decodeInputBody : String → List Nat → Except String (String × Json)
  createRunMessage : String → String → String → Json → Bool → Except String Msg
  fromStateInit : List Nat → Except String Nat
  deserializeMessage : List Nat → Except String Nat
  setStateInit : Nat → Nat → Nat
  serializeMessage : Nat → Except String (List Nat × String)
  processMessage : Msg → String → String → Bool → Except SdkErr Json
  invokeDebot : String → DAction → Except String Unit
  callRoutine : String → String → Bool → Except String String
  inputValue : Nat → String
  dateFmt : Nat → String

/-- The mutable fields of `DEngine` (the client handle and the browser
live in `Env` / the event trace). -/
structure Eng where
  abi : String
  addr : String
  state : Json
  state_machine : List DContext
  curr_state : Nat
  prev_state : Nat
  target_addr : Option String
  target_abi : Option String

/-- One observable front-end (browser) interaction. -/
inductive BEvent where
  | log (s : String)
  | switch (id : Nat)
  | show (a : DAction)
  | input
  | loadKey
  | invokeDebot (addr : String) (a : DAction)

/-- Engine state threaded through the interpreter: the `DEngine` fields,
the front-end interaction trace (most recent first), and — as pure
instrumentation for stating invariants — the ids of the contexts
successfully entered so far (most recent first). -/
structure St where
  eng : Eng
  events : List BEvent
  entered : List Nat

/-- Append a `browser.log` event. -/
def logEv (st : St) (s : String) : St :=
  { st with events := .log s :: st.events }

/-- Append a `browser.switch` notification. -/
def switchEv (st : St) (id : Nat) : St :=
  { st with events := .switch id :: st.events }

/-- Append a `browser.show_action` presentation. -/
def showEv (st : St) (a : DAction) : St :=
  { st with events := .show a :: st.events }

/-- Append a `browser.input` prompt. -/
def inputEv (st : St) : St :=
  { st with events := .input :: st.events }

/-- Append a `browser.load_key` request. -/
def loadKeyEv (st : St) : St :=
  { st with events := .loadKey :: st.events }

/-- Append a `browser.invoke_debot` request. -/
def invokeEv (st : St) (addr : String) (a : DAction) : St :=
  { st with events := .invokeDebot addr a :: st.events }

/-- Entering a context: `browser.switch`, `browser.log(desc)` and the
instrumentation record of the entered id. -/
def enterEv (st : St) (id : Nat) (desc : String) : St :=
  { st with
    events := .log desc :: .switch id :: st.events
    entered := id :: st.entered }

/-- Overwrite `curr_state` (the raw assignment in `enumerate_actions`). -/
def setCurr (st : St) (n : Nat) : St :=
  { st with eng := { st.eng with curr_state := n } }

/-- The committed transition of `switch_state`: record current as
previous, adopt the target as current. -/
def commitSwitch (st : St) (t : Nat) : St :=
  { st with eng := { st.eng with prev_state := st.eng.curr_state, curr_state := t } }

/-- Overwrite the session-state document. -/
def setState (st : St) (j : Json) : St :=
  { st with eng := { st.eng with state := j } }

/-- Number of `browser.input` prompts issued so far (indexes the
front-end input oracle). -/
def countInputs : List BEvent → Nat
  | [] => 0
  | .input :: rest => countInputs rest + 1
  | _ :: rest => countInputs rest

/-- Outcome of a stateful engine operation: success or error (each with
the post-state — `&mut self` mutations survive an `Err` return), a Rust
panic, or exhaustion of the fuel bounding the source's unbounded loops. -/
inductive RRes (α : Type) where
  | ok (a : α) (st : St)
  | err (e : String) (st : St)
  | panic
  | fuelOut

/-! ### dengine.rs: call façade -/

/-- Model of `load_ton_address` (src/dengine.rs). -/
def load_ton_address (env : Env) (addr : String) : Except String String :=
  (env.parseAddr addr).mapError (fun e => "failed to parse address: " ++ e)

/-- Model of `DEngine::get_target` (src/dengine.rs). -/
def get_target (eng : Eng) : Except String (String × String) :=
  match eng.target_addr with
  | none => .error "target address is undefined"
  | some addr =>
    match eng.target_abi with
    | none => .error "target abi is undefined"
    | some abi => .ok (addr, abi)

/-- The raw simulated call against self, before error classification
(the body of `DEngine::run` for `is_target = false`). -/
def runRawSelf (env : Env) (eng : Eng) (func : String) (args : Option Json)
    (with_state emulate_real_txn : Bool) : Except SdkErr RunOut :=
  env.runLocal eng.addr (if with_state then some eng.state else none) eng.abi func
    (args.getD (Json.obj [])) emulate_real_txn

/-- Model of `DEngine::handle_sdk_err` (src/dengine.rs): the façade's error
classifier. The secondary `getErrorDescription` lookup maps its own
error through the classifier again in the source, but that string is
immediately discarded by `.ok()`, so only the success/failure of the
raw inner call is observable and the model uses `runRawSelf` there. -/
def handle_sdk_err (env : Env) (eng : Eng) : SdkErr → String
  | .innerSdk message code data =>
    if containsSub message "Wrong data format" then "invalid parameter"
    else if code = 3025 then
      match (data.get "exit_code").asInt with
      | some ec =>
        match runRawSelf env eng "getErrorDescription"
            (some (Json.obj [("error", Json.num ec)])) true false with
        | .ok res =>
          (((res.output.get "desc").asStr).bind (fun h =>
            (hexDecode h.data).bind (fun bytes =>
              (utf8Decode bytes).map String.mk))).getD message
        | .error _ => message
      | none => message
    else message
  | .other text => text

/-- Model of `DEngine::run` (src/dengine.rs): resolve address and ABI (self or
target), issue the simulated call, classify any service error. -/
def run (env : Env) (eng : Eng) (is_target : Bool) (func : String) (args : Option Json)
    (with_state emulate_real_txn : Bool) : Except String RunOut :=
  match (if is_target then get_target eng else .ok (eng.addr, eng.abi)) with
  | .error e => .error e
  | .ok (addr, abi) =>
    (env.runLocal addr (if with_state then some eng.state else none) abi func
      (args.getD (Json.obj [])) emulate_real_txn).mapError (handle_sdk_err env eng)

/-- Model of `DEngine::run_get` (src/dengine.rs). -/
def run_get (env : Env) (eng : Eng) (name : String) : Except String RunOut :=
  run env eng false name none true false

/-- Model of `DEngine::run_debot` (src/dengine.rs): simulated self call that
overwrites the session state with the returned account snapshot
(panicking if the snapshot is absent). -/
def run_debot (env : Env) (st : St) (name : String) (args : Option Json) : RRes Json :=
  match run env st.eng false name args true true with
  | .error e => .err e st
  | .ok res =>
    match res.account with
    | none => .panic
    | some acc => .ok res.output (setState st acc)

/-- Model of `DEngine::update_options` (src/dengine.rs): re-read the option
bitmask and conditionally refresh self ABI, target ABI and target
address. -/
def update_options (env : Env) (st : St) : RRes Unit :=
  match run_get env st.eng "getDebotOptions" with
  | .error e => .err e st
  | .ok params =>
    match (params.output.get "options").asStr with
    | none => .panic
    | some optStr =>
      match parseHexBounded 256 (trim0x optStr.data) with
      | none => .panic
      | some options =>
        let step1 : RRes Unit :=
          if options.land 1 ≠ 0 then
            match (params.output.get "debotAbi").asStr with
            | none => .panic
            | some h =>
              match str_hex_to_utf8 h with
              | none => .err "cannot convert hex string to debot abi" st
              | some s => .ok () { st with eng := { st.eng with abi := s } }
          else .ok () st
        match step1 with
        | .ok _ st1 =>
          let step2 : RRes Unit :=
            if options.land 2 ≠ 0 then
              match (params.output.get "targetAbi").asStr with
              | none => .panic
              | some h =>
                .ok () { st1 with eng := { st1.eng with target_abi := str_hex_to_utf8 h } }
            else .ok () st1
          match step2 with
          | .ok _ st2 =>
            if options.land 4 ≠ 0 then
              match (params.output.get "targetAddr").asStr with
              | none => .panic
              | some addrStr =>
                match load_ton_address env addrStr with
                | .error e => .err e st2
                | .ok a => .ok () { st2 with eng := { st2.eng with target_addr := some a } }
            else .ok () st2
          | other => other
        | other => other

/-- Model of `DEngine::load_state` (src/dengine.rs): invoke the self contract's
`getVersion`, decode name and semantic version (panicking on malformed
fields), store the account snapshot, log the banner, synchronize
options. -/
def load_state (env : Env) (st : St) : RRes String :=
  match run env st.eng false "getVersion" none false true with
  | .error e => .err ("failed to fetch debot state: " ++ e) st
  | .ok result =>
    match (result.output.get "name").asStr with
    | none => .panic
    | some nameHex =>
      match (result.output.get "semver").asStr with
      | none => .panic
      | some semver =>
        match str_hex_to_utf8 nameHex with
        | none => .panic
        | some name =>
          match parseHexBounded (2 ^ 32) (trim0x semver.data) with
          | none => .panic
          | some ver =>
            match result.account with
            | none => .panic
            | some acc =>
              let st1 := logEv (setState st acc)
                (name ++ ", version " ++ toString (ver >>> 16 % 256) ++ "." ++
                  toString (ver >>> 8 % 256) ++ "." ++ toString (ver % 256))
              match update_options env st1 with
              | .ok _ st2 => .ok (Json.render result.output) st2
              | .err e st2 => .err e st2
              | .panic => .panic
              | .fuelOut => .fuelOut

/-- Model of `DEngine::fetch_state` (src/dengine.rs): `load_state`, then the
`fetch` call, then deserialize its `contexts` field (panicking if that
deserialization fails). -/
def fetch_state (env : Env) (st : St) : RRes (List DContext) :=
  match load_state env st with
  | .ok _ st1 =>
    match run_get env st1.eng "fetch" with
    | .error e => .err e st1
    | .ok result =>
      match decodeContexts (result.output.get "contexts") with
      | none => .panic
      | some ctxs => .ok ctxs st1
  | .err e st1 => .err e st1
  | .panic => .panic
  | .fuelOut => .fuelOut

/-- Model of `DEngine::fetch` (src/dengine.rs): replace the context graph and
reset the previous state to EXIT. -/
def fetch (env : Env) (st : St) : RRes Unit :=
  match fetch_state env st with
  | .ok sm st1 =>
    .ok () { st1 with eng := { st1.eng with state_machine := sm, prev_state := STATE_EXIT } }
  | .err e st1 => .err e st1
  | .panic => .panic
  | .fuelOut => .fuelOut

/-! ### dengine.rs: argument resolution and per-kind execution -/

/-- The `find` over the ABI's function array in `query_action_args`:
outer `none` is the panic on a function entry without a string name,
`some none` means no function matched. -/
def findFunc : List Json → String → Option (Option Json)
  | [], _ => some none
  | f :: rest, nm =>
    match (f.get "name").asStr with
    | none => none
    | some n => if n = nm then some (some f) else findFunc rest nm

/-- The per-argument prompting loop of `query_action_args`: for each
declared input, prompt the front end, hex-encode the reply when the
declared type is `bytes`, and record it under the argument's name. -/
def gatherArgs (env : Env) (st : St) (obj : List (String × Json)) :
    List Json → Option (List (String × Json) × St)
  | [] => some (obj, st)
  | arg :: rest =>
    match (arg.get "name").asStr with
    | none => none
    | some argName =>
      let value := env.inputValue (countInputs st.events)
      let st1 := inputEv st
      match (arg.get "type").asStr with
      | none => none
      | some ty =>
        let value1 := if ty = "bytes" then hexEncode (utf8Encode value) else value
        gatherArgs env st1 (objSet obj argName (Json.str value1)) rest

/-- Model of `DEngine::query_action_args` (src/dengine.rs): a non-sentinel
`misc` is passed through as the single `misc` argument; otherwise the
declared ABI inputs are prompted for one by one. -/
def query_action_args (env : Env) (st : St) (act : DAction) : RRes (Option Json) :=
  if act.misc ≠ emptyCell then
    .ok (some (Json.obj [("misc", Json.str act.misc)])) st
  else
    match env.parseJson st.eng.abi with
    | none => .panic
    | some abiJson =>
      match (abiJson.get "functions").asArr with
      | none => .panic
      | some functions =>
        match findFunc functions act.name with
        | none => .panic
        | some none => .err "action not found" st
        | some (some f) =>
          match (f.get "inputs").asArr with
          | none => .panic
          | some arguments =>
            match gatherArgs env st [] arguments with
            | none => .panic
            | some (obj, st1) => .ok (some (Json.obj obj)) st1

/-- Model of `DEngine::run_action` (src/dengine.rs): resolve arguments, invoke
the named self function, and decode an optional `actions` follow-up
list from the output (panicking if that decode fails). -/
def run_action (env : Env) (st : St) (action : DAction) : RRes (Option (List DAction)) :=
  match query_action_args env st action with
  | .ok args st1 =>
    match run_debot env st1 action.name args with
    | .ok output st2 =>
      if output.isNull then .ok none st2
      else
        match decodeActions (output.get "actions") with
        | none => .panic
        | some v => .ok (some v) st2
    | .err e st2 => .err e st2
    | .panic => .panic
    | .fuelOut => .fuelOut
  | .err e st1 => .err e st1
  | .panic => .panic
  | .fuelOut => .fuelOut

/-- Model of `pack_state` (src/dengine.rs): attach initial-state bytes to an
encoded message through the external codec. -/
def pack_state (env : Env) (msg : Msg) (state : Option (List Nat)) : Except String Msg :=
  match state with
  | none => .ok msg
  | some bytes =>
    match (env.fromStateInit bytes).mapError
        (fun e => "unable to build contract image: " ++ e) with
    | .error e => .error e
    | .ok image =>
      match (env.deserializeMessage msg.messageBody).mapError
          (fun e => "cannot deserialize buffer to msg: " ++ e) with
      | .error e => .error e
      | .ok rawMsg =>
        match (env.serializeMessage (env.setStateInit rawMsg image)).mapError
            (fun e => "cannot serialize msg with state: " ++ e) with
        | .error e => .error e
        | .ok (bytes1, id1) => .ok { messageBody := bytes1, messageId := id1 }

/-- Model of `DEngine::call_target` (src/dengine.rs): build, pack, log and
submit a real message, classifying submission errors. -/
def call_target (env : Env) (st : St) (dest abi func : String) (args : Json)
    (hasKeys : Bool) (state : Option (List Nat)) : RRes Json :=
  match load_ton_address env dest with
  | .error e => .err e st
  | .ok addr =>
    match env.createRunMessage addr abi func args hasKeys with
    | .error _ => .err "failed to create message" st
    | .ok msg =>
      match pack_state env msg state with
      | .error e => .err e st
      | .ok msg1 =>
        let st1 := logEv st ("sending message " ++ msg1.messageId)
        match env.processMessage msg1 abi func false with
        | .error e => .err (handle_sdk_err env st1.eng e) st1
        | .ok out => .ok out st1

/-- Model of `DEngine::run_sendmsg` (src/dengine.rs): run the self function to
obtain destination / body / optional state, pick the decoding ABI
(self ABI when the destination is the self address, otherwise the
configured target ABI — `unwrap()`, i.e. a panic, when none is
configured), decode the body and submit. -/
def run_sendmsg (env : Env) (st : St) (name : String) (args : Option Json)
    (hasKeys : Bool) : RRes Json :=
  match run_debot env st name args with
  | .ok result st1 =>
    match (result.get "dest").asStr with
    | none => .panic
    | some dest =>
      match (result.get "body").asStr with
      | none => .panic
      | some body =>
        match (match (result.get "state").asStr with
               | none => Except.ok (none : Option (List Nat))
               | some v =>
                 (env.base64Decode v).map some |>.mapError
                   (fun e => "cannot decode state: " ++ e)) with
        | .error e => .err e st1
        | .ok stateBytes =>
          match load_ton_address env dest with
          | .error e => .err e st1
          | .ok destAddr =>
            match (if destAddr = st1.eng.addr then some st1.eng.abi
                   else st1.eng.target_abi) with
            | none => .panic
            | some abi =>
              match env.base64Decode body with
              | .error _ => .panic
              | .ok bodyBytes =>
                match (env.decodeInputBody abi bodyBytes).mapError
                    (fun e => "failed to decode msg body: " ++ e) with
                | .error e => .err e st1
                | .ok (func, output) =>
                  call_target env st1 dest abi func output hasKeys stateBytes
  | .err e st1 => .err e st1
  | .panic => .panic
  | .fuelOut => .fuelOut

/-- Model of `DEngine::run_getmethod` (src/dengine.rs): refresh options, invoke
the read-only getter on the target, feed its output to the result
handler on self. -/
def run_getmethod (env : Env) (st : St) (getmethod : String) (args : Option Json)
    (result_handler : String) : RRes Json :=
  match update_options env st with
  | .ok _ st1 =>
    match run env st1.eng true getmethod args false false with
    | .error e => .err e st1
    | .ok result => run_debot env st1 result_handler (some result.output)
  | .err e st1 => .err e st1
  | .panic => .panic
  | .fuelOut => .fuelOut

/-- Model of `DEngine::call_routine` (src/dengine.rs), delegating to the routine
registry oracle (the registry itself is modelled from the spec as an
open name-to-implementation mapping). -/
def call_routine (env : Env) (name args : String) (hasKeys : Bool) : Except String String :=
  env.callRoutine name args hasKeys

/-- Model of `DEngine::handle_action` (src/dengine.rs): the per-kind action
dispatcher. -/
def handle_action (env : Env) (st : St) (a : DAction) : RRes (Option (List DAction)) :=
  match a.actionType with
  | .empty => .ok none st
  | .runAction => run_action env st a
  | .runMethod =>
    match a.func_attr with
    | none => .panic
    | some func =>
      match (match a.args_attr with
             | some getter =>
               (match run_debot env st getter none with
                | .ok res st1 => RRes.ok (some res) st1
                | .err e st1 => .err e st1
                | .panic => .panic
                | .fuelOut => .fuelOut)
             | none => .ok none st) with
      | .ok args st1 =>
        (match run_getmethod env st1 func args a.name with
         | .ok _ st2 => .ok none st2
         | .err e st2 => .err e st2
         | .panic => .panic
         | .fuelOut => .fuelOut)
      | .err e st1 => .err e st1
      | .panic => .panic
      | .fuelOut => .fuelOut
  | .sendMsg =>
    let st0 := if a.sign_by_user then loadKeyEv st else st
    let args := if a.misc ≠ emptyCell then some (Json.obj [("misc", Json.str a.misc)]) else none
    match run_sendmsg env st0 a.name args a.sign_by_user with
    | .ok result st1 =>
      let st2 := logEv st1 "Transaction succeeded."
      let st3 := if result.isNull then st2 else logEv st2 ("Result: " ++ result.render)
      .ok none st3
    | .err e st1 => .err e st1
    | .panic => .panic
    | .fuelOut => .fuelOut
  | .invoke =>
    match run_debot env st a.name none with
    | .ok invokeArgs st1 =>
      match (invokeArgs.get "debot").asStr with
      | none => .panic
      | some dstr =>
        match load_ton_address env dstr with
        | .error e => .err e st1
        | .ok daddr =>
          match decodeAction (invokeArgs.get "action") with
          | none => .panic
          | some dact =>
            let st2 := invokeEv st1 daddr dact
            match env.invokeDebot daddr dact with
            | .error e => .err e st2
            | .ok _ => .ok none st2
    | .err e st1 => .err e st1
    | .panic => .panic
    | .fuelOut => .fuelOut
  | .print =>
    match a.format_args with
    | none => .ok none (logEv st a.name)
    | some getter =>
      let args := if a.misc ≠ emptyCell then some (Json.obj [("misc", Json.str a.misc)]) else none
      match run_debot env st getter args with
      | .ok params st1 =>
        match format_string env.dateFmt a.name params with
        | none => .panic
        | some label => .ok none (logEv st1 label)
      | .err e st1 => .err e st1
      | .panic => .panic
      | .fuelOut => .fuelOut
  | .goto => .ok none st
  | .callEngine =>
    match (match a.args_attr with
           | some getter =>
             (match run_debot env st getter none with
              | .ok res st1 => RRes.ok res.render st1
              | .err e st1 => .err e st1
              | .panic => .panic
              | .fuelOut => .fuelOut)
           | none => .ok a.desc st) with
    | .ok argsStr st1 =>
      let st2 := if a.sign_by_user then loadKeyEv st1 else st1
      match call_routine env a.name argsStr a.sign_by_user with
      | .error e => .err e st2
      | .ok res =>
        match a.func_attr with
        | none => .err "routine callback is not specified" st2
        | some setter =>
          match run_debot env st2 setter (some (Json.obj [("arg1", Json.str res)])) with
          | .ok _ st3 => .ok none st3
          | .err e st3 => .err e st3
          | .panic => .panic
          | .fuelOut => .fuelOut
    | .err e st1 => .err e st1
    | .panic => .panic
    | .fuelOut => .fuelOut
  | .unsupported =>
    .err "unsupported action type" (logEv st "unsupported action type")

/-! ### dengine.rs: state machine -/

/-- The inner queue of `enumerate_actions` for one seeded action:
dequeue, classify (instant / engine-call / interactive), enqueue an
instant action's follow-ups at the back, and — after an instant action
— compare its sentinel-resolved target with the current state,
adopting the raw declared `to` and signalling an instant switch when
they differ. Fuel bounds the queue, which follow-up actions can grow
without limit. -/
def procQueue (env : Env) : Nat → St → List DAction → RRes Bool
  | _, st, [] => .ok false st
  | 0, _, _ :: _ => .fuelOut
  | fuel + 1, st, act :: rest =>
    if act.is_instant then
      let st1 := if act.desc.length ≠ 0 then logEv st act.desc else st
      match handle_action env st1 act with
      | .ok ov st2 =>
        let rest1 := rest ++ ov.getD []
        let tgt := if act.toId = STATE_CURRENT then st2.eng.curr_state
                   else if act.toId = STATE_PREV then st2.eng.prev_state
                   else act.toId
        if tgt ≠ st2.eng.curr_state then .ok true (setCurr st2 act.toId)
        else procQueue env fuel st2 rest1
      | .err e st2 => .err e st2
      | .panic => .panic
      | .fuelOut => .fuelOut
    else if act.is_engine_call then
      match handle_action env st act with
      | .ok _ st2 => procQueue env fuel st2 rest
      | .err e st2 => .err e st2
      | .panic => .panic
      | .fuelOut => .fuelOut
    else procQueue env fuel (showEv st act) rest

/-- The outer `for` of `enumerate_actions`: seed the queue with each
declared action in order, stopping at the first instant switch. -/
def enumLoop (env : Env) (fuel : Nat) : St → List DAction → RRes Bool
  | st, [] => .ok false st
  | st, a :: rest =>
    match procQueue env fuel st [a] with
    | .ok true st1 => .ok true st1
    | .ok false st1 => enumLoop env fuel st1 rest
    | .err e st1 => .err e st1
    | .panic => .panic
    | .fuelOut => .fuelOut

/-- Model of `DEngine::enumerate_actions` (src/dengine.rs). -/
def enumerate_actions (env : Env) (fuel : Nat) (st : St) (ctx : DContext) : RRes Bool :=
  enumLoop env fuel st ctx.actions

/-- The `while instant_switch` loop of `switch_state`: look up the
target context; when found, notify the front end, log the description
and run context entry, repeating with the new current state if an
instant switch was requested; when absent, either signal EXIT or log
"context not found" and stop. Fuel bounds the instant-switch chain,
which the source leaves unrestricted. -/
def switchLoop (env : Env) : Nat → St → Nat → RRes Unit
  | 0, _, _ => .fuelOut
  | fuel + 1, st, state_to =>
    match st.eng.state_machine.find? (fun c => c.id == state_to) with
    | some ctx =>
      match enumerate_actions env fuel (enterEv st state_to ctx.desc) ctx with
      | .ok true st1 => switchLoop env fuel st1 st1.eng.curr_state
      | .ok false st1 => .ok () st1
      | .err e st1 => .err e st1
      | .panic => .panic
      | .fuelOut => .fuelOut
    | none =>
      if state_to = STATE_EXIT then .ok () (switchEv st STATE_EXIT)
      else .ok () (logEv st ("Debot context #" ++ toString state_to ++ " not found. Exit."))

/-- Model of `DEngine::switch_state` (src/dengine.rs): resolve the CURRENT and
PREV sentinels (in that order), signal EXIT without touching the state,
and otherwise — when the target differs from current or `force` is set
— commit the transition and run the context-entry loop. -/
def switch_state (env : Env) (fuel : Nat) (st : St) (state_to : Nat) (force : Bool) :
    RRes Unit :=
  let t1 := if state_to = STATE_CURRENT then st.eng.curr_state else state_to
  let t2 := if t1 = STATE_PREV then st.eng.prev_state else t1
  if t2 = STATE_EXIT then .ok () (switchEv st STATE_EXIT)
  else if t2 ≠ st.eng.curr_state ∨ force = true then
    switchLoop env fuel (commitSwitch st t2) t2
  else .ok () st

/-- Model of `DEngine::execute_action` (src/dengine.rs): handle the action, on
success switch to its declared target with `force = true`; on any
failure (of the handling or of that switch) log the failure and fall
back to `previous_state` with `force = false`. -/
def execute_action (env : Env) (fuel : Nat) (st : St) (act : DAction) : RRes Unit :=
  let attempt :=
    match handle_action env st act with
    | .ok _ st1 => switch_state env fuel st1 act.toId true
    | .err e st1 => .err e st1
    | .panic => .panic
    | .fuelOut => .fuelOut
  match attempt with
  | .err e st1 =>
    switch_state env fuel
      (logEv st1 ("Action failed: " ++ e ++ ". Return to previous state.\n"))
      st1.eng.prev_state false
  | other => other

/-- Model of `DEngine::start` (src/dengine.rs): fetch the graph, then force
entry into the ZERO state. -/
def start (env : Env) (fuel : Nat) (st : St) : RRes Unit :=
  match fetch_state env st with
  | .ok sm st1 =>
    switch_state env fuel { st1 with eng := { st1.eng with state_machine := sm } }
      STATE_ZERO true
  | .err e st1 => .err e st1
  | .panic => .panic
  | .fuelOut => .fuelOut

/-! ### Observers on outcomes (used to state the properties) -/

/-- The `curr_state` of the post-state, when control returned. -/
def RRes.currOf {α : Type} : RRes α → Option Nat
  | .ok _ st => some st.eng.curr_state
  | .err _ st => some st.eng.curr_state
  | _ => none

/-- The `prev_state` of the post-state, when control returned. -/
def RRes.prevOf {α : Type} : RRes α → Option Nat
  | .ok _ st => some st.eng.prev_state
  | .err _ st => some st.eng.prev_state
  | _ => none

/-- The instrumentation trace of entered context ids, when control
returned. -/
def RRes.enteredOf {α : Type} : RRes α → Option (List Nat)
  | .ok _ st => some st.entered
  | .err _ st => some st.entered
  | _ => none

/-- Did the operation return successfully? -/
def RRes.isOk {α : Type} : RRes α → Bool
  | .ok _ _ => true
  | _ => false

/-- Did the operation return an error (as opposed to panicking)? -/
def RRes.isErr {α : Type} : RRes α → Bool
  | .err _ _ => true
  | _ => false

/-- Did the operation panic? -/
def RRes.isPanic {α : Type} : RRes α → Bool
  | .panic => true
  | _ => false

/-- The number of front-end input prompts issued, when control
returned. -/
def RRes.inputsOf {α : Type} : RRes α → Option Nat
  | .ok _ st => some (countInputs st.events)
  | .err _ st => some (countInputs st.events)
  | _ => none

/-- The front-end interaction trace (most recent first), when control
returned. -/
def RRes.eventsOf {α : Type} : RRes α → Option (List BEvent)
  | .ok _ st => some st.events
  | .err _ st => some st.events
  | _ => none

/-- The error text, when the operation returned an error. -/
def RRes.errOf {α : Type} : RRes α → Option String
  | .err e _ => some e
  | _ => none

/-! ### Invariant vocabulary for the state machine -/

/-- The state-machine core is unchanged: current and previous state,
context graph, and the entered-contexts instrumentation. -/
def coreEq (st st' : St) : Prop :=
  st'.eng.curr_state = st.eng.curr_state ∧ st'.eng.prev_state = st.eng.prev_state ∧
  st'.eng.state_machine = st.eng.state_machine ∧ st'.entered = st.entered

/-- Everything of the core except possibly the current state is
unchanged. -/
def partEq (st st' : St) : Prop :=
  st'.eng.prev_state = st.eng.prev_state ∧
  st'.eng.state_machine = st.eng.state_machine ∧ st'.entered = st.entered

/-- The outcome preserves the state-machine core whenever control
returns (success or error). -/
def corePres {α : Type} (st : St) : RRes α → Prop
  | .ok _ st' => coreEq st st'
  | .err _ st' => coreEq st st'
  | .panic => True
  | .fuelOut => True

/-- The invariant `current_state` actually maintains: it is the most
recently entered context id, or EXIT, or an id absent from the context
graph (left behind by a failed lookup or a raw sentinel adoption). -/
def currInv (st : St) : Prop :=
  st.entered.head? = some st.eng.curr_state ∨
  st.eng.curr_state = STATE_EXIT ∨
  ∀ c ∈ st.eng.state_machine, c.id ≠ st.eng.curr_state

instance instDecidableCurrInv (st : St) : Decidable (currInv st) := by
  unfold currInv
  infer_instance

/-- The CURRENT/PREV sentinel resolution performed at the head of
`switch_state` (CURRENT first, then PREV on the possibly-rewritten
value). -/
def resolveTarget (st : St) (t : Nat) : Nat :=
  let t1 := if t = STATE_CURRENT then st.eng.curr_state else t
  if t1 = STATE_PREV then st.eng.prev_state else t1

/-! ### Concrete fixtures for counterexamples and witnesses -/

/-- An environment whose oracles all answer with inert defaults (the
service refuses every call); individual scenarios override fields. -/
def envBase : Env :=
  { runLocal := fun _ _ _ _ _ _ => .error (.other "no service")
    parseAddr := fun s => .ok s
    parseJson := fun _ => none
    base64Decode := fun _ => .error "bad base64"
    decodeInputBody := fun abi _ => .error abi
    createRunMessage := fun _ _ _ _ _ => .error "no codec"
    fromStateInit := fun _ => .error "no codec"
    deserializeMessage := fun _ => .error "no codec"
    setStateInit := fun a _ => a
    serializeMessage := fun _ => .error "no codec"
    processMessage := fun _ _ _ _ => .error (.other "no service")
    invokeDebot := fun _ _ => .ok ()
    callRoutine := fun _ _ _ => .error "routine not found"
    inputValue := fun _ => ""
    dateFmt := fun _ => "date" }

/-- A freshly constructed engine (`DEngine::new_with_client` field
values: current = EXIT, previous = ZERO, empty graph and state). -/
def engBase : Eng :=
  { abi := "A", addr := "self", state := Json.obj [], state_machine := []
    curr_state := STATE_EXIT, prev_state := STATE_ZERO
    target_addr := none, target_abi := none }

/-- An action of the unsupported kind (its handling always fails). -/
def actU : DAction :=
  { name := "u", desc := "", toId := 0, actionType := .unsupported, misc := emptyCell
    signByUser := false, instant := false, engineCall := false
    funcAttrVal := none, argsAttrVal := none, formatArgsVal := none }

/-- An instant Goto action whose declared target is the PREV sentinel. -/
def aiPrev : DAction :=
  { actU with name := "g", actionType := .goto, toId := STATE_PREV, instant := true }

/-- A RunAction whose `misc` attribute is not the empty-cell sentinel. -/
def actMisc : DAction :=
  { actU with actionType := .runAction, misc := "MV" }

/-- The initial context (id 0), with no actions. -/
def ctxZero : DContext := { id := 0, desc := "start", actions := [] }

/-- A context whose single action is the instant PREV-targeted one. -/
def ctxOne : DContext := { id := 1, desc := "one", actions := [aiPrev] }

/-- A further empty context with id 2. -/
def ctxTwo : DContext := { id := 2, desc := "two", actions := [] }

/-- Engine state after entering context 0 with previous state EXIT (the
state right after `start()` on a single-context graph). -/
def stC1a : St :=
  { eng := { engBase with state_machine := [ctxZero], curr_state := 0, prev_state := STATE_EXIT }
    events := [], entered := [0] }

/-- Engine state whose previous state (7) is absent from the graph. -/
def stC1b : St :=
  { eng := { engBase with state_machine := [ctxZero], curr_state := 0, prev_state := 7 }
    events := [], entered := [0] }

/-- A fresh engine state holding the single-context graph. -/
def stInit : St :=
  { eng := { engBase with state_machine := [ctxZero] }, events := [], entered := [] }

/-- The fields reached from `stInit` after switching into context 0. -/
def stMid : St :=
  { eng := { engBase with state_machine := [ctxZero], curr_state := 0, prev_state := STATE_EXIT }
    events := [.log "start", .switch 0], entered := [0] }

/-- Engine state for the instant-switch scenario: at context 2, with
previous state 0 and a graph holding contexts 1 and 2. -/
def stC3 : St :=
  { eng := { engBase with state_machine := [ctxOne, ctxTwo], curr_state := 2, prev_state := 0 }
    events := [], entered := [] }

/-- A bare engine state over the fresh engine. -/
def stBase : St := { eng := engBase, events := [], entered := [] }

/-- A service answering the `send` function with a message whose
destination is a foreign address. -/
def envSend : Env :=
  { envBase with
    runLocal := fun _ _ _ f _ _ =>
      if f = "send" then
        .ok { output := Json.obj [("dest", .str "other"), ("body", .str "B")]
              account := some (Json.obj []) }
      else .error (.other "nf")
    base64Decode := fun _ => .ok [] }

/-- The same service but with the destination equal to the self
address. -/
def envSendSelf : Env :=
  { envSend with
    runLocal := fun _ _ _ f _ _ =>
      if f = "send" then
        .ok { output := Json.obj [("dest", .str "self"), ("body", .str "B")]
              account := some (Json.obj []) }
      else .error (.other "nf") }

/-- Fixture: `stBase` with a configured target ABI. -/
def stSendT : St :=
  { eng := { engBase with target_abi := some "TABI" }, events := [], entered := [] }

/-- A service whose `fetch` output lacks the `contexts` field (after a
well-formed `getVersion` / `getDebotOptions`). -/
def envFetchBad : Env :=
  { envBase with
    runLocal := fun _ _ _ f _ _ =>
      if f = "getVersion" then
        .ok { output := Json.obj [("name", .str "41"), ("semver", .str "0x010203")]
              account := some (Json.obj []) }
      else if f = "getDebotOptions" then
        .ok { output := Json.obj [("options", .str "0x0")], account := none }
      else if f = "fetch" then .ok { output := Json.obj [], account := none }
      else .error (.other "nf") }

/-- The same service with a well-formed one-context graph. -/
def envFetchOk : Env :=
  { envFetchBad with
    runLocal := fun _ _ _ f _ _ =>
      if f = "getVersion" then
        .ok { output := Json.obj [("name", .str "41"), ("semver", .str "0x010203")]
              account := some (Json.obj []) }
      else if f = "getDebotOptions" then
        .ok { output := Json.obj [("options", .str "0x0")], account := none }
      else if f = "fetch" then
        .ok { output := Json.obj [("contexts", Json.arr
                [Json.obj [("id", .num 7), ("desc", .str "c"), ("actions", Json.arr [])]])]
              account := none }
      else .error (.other "nf") }

/-- A service on which every remote call fails. -/
def envFetchFail : Env :=
  { envFetchBad with runLocal := fun _ _ _ _ _ _ => .error (.other "downstream") }

/-- A service whose options bitmask has only the target-address bit. -/
def envOpt : Env :=
  { envBase with
    runLocal := fun _ _ _ f _ _ =>
      if f = "getDebotOptions" then
        .ok { output := Json.obj [("options", .str "0x4"), ("targetAddr", .str "T")]
              account := none }
      else .error (.other "nf") }

/-- A pure Goto action back into state 0. -/
def actGoto : DAction :=
  { actU with name := "go", actionType := .goto }

/-- The engine state reached from `stC1a` by a successful Goto into
state 0 (forced re-entry into context 0). -/
def stGotoAfter : St :=
  { eng := { engBase with state_machine := [ctxZero], curr_state := 0, prev_state := 0 }
    events := [.log "start", .switch 0], entered := [0, 0] }

/-- The `getDebotOptions` output of `envOpt`. -/
def outOpt : RunOut :=
  { output := Json.obj [("options", .str "0x4"), ("targetAddr", .str "T")], account := none }

/-- The engine state after synchronizing options against `envOpt`. -/
def stOptAfter : St :=
  { eng := { engBase with target_addr := some "T" }, events := [], entered := [] }

/-- A service answering `getErrorDescription` with the hex encoding of
the text `"E"`. -/
def envDesc : Env :=
  { envBase with
    runLocal := fun _ _ _ f _ _ =>
      if f = "getErrorDescription" then
        .ok { output := Json.obj [("desc", .str "45")], account := none }
      else .error (.other "nf") }

/-! ### Lemmas about the template splitter -/

/-- Lemma: `splitBB` never returns the empty list. -/
theorem splitBB_ne_nil : ∀ l : List Char, splitBB l ≠ []
  | [] => by simp [splitBB]
  | [c] => by simp [splitBB]
  | c1 :: c2 :: rest => by
    by_cases hb : c1 = '\x7b' ∧ c2 = '\x7d'
    · simp [splitBB, hb]
    · have h := splitBB_ne_nil (c2 :: rest)
      simp only [splitBB, if_neg hb]
      cases hr : splitBB (c2 :: rest) with
      | nil => exact absurd hr h
      | cons hd tl => simp

/-- A character list in which the placeholder does not occur splits to
itself alone. -/
theorem splitBB_of_no_placeholder :
    ∀ l : List Char, containsSub.go "\x7b\x7d" l = false → splitBB l = [l]
  | [], _ => rfl
  | [c], h => by
    simp only [containsSub.go, Bool.or_eq_false_iff] at h
    rfl
  | c1 :: c2 :: rest, h => by
    simp only [containsSub.go, Bool.or_eq_false_iff] at h
    obtain ⟨hpre, hrest⟩ := h
    have hrest2 : containsSub.go "\x7b\x7d" (c2 :: rest) = false := by
      simp only [containsSub.go, Bool.or_eq_false_iff] at hrest ⊢
      exact hrest
    have hb : ¬(c1 = '\x7b' ∧ c2 = '\x7d') := by
      rintro ⟨rfl, rfl⟩
      simp [List.isPrefixOf] at hpre
    have ih := splitBB_of_no_placeholder (c2 :: rest) hrest2
    simp only [splitBB, if_neg hb, ih]

/-! ### C5: template rendering on placeholder-free templates -/

/-- C5 (counterexample): rendering the placeholder-free template
`"hello"` against a parameter document with a `param0` string field
yields `"helloX"`, not the template itself — the source appends the
rendering of argument 0 after the single piece of the split. -/
theorem format_string_identity_cex :
    format_string (fun _ => "") "hello" (Json.obj [("param0", Json.str "X")]) =
      some "helloX" ∧ "helloX" ≠ "hello" := by
  constructor
  · rfl
  · decide

/-- C5 (amended): for every template without the placeholder `\x7b\x7d`
and every parameter document in which none of `param0`, `str0`,
`number0`, `utime0` is a string field, rendering returns the template
unchanged. -/
theorem format_string_no_placeholder (dateFmt : Nat → String) (fstr : String) (params : Json)
    (hnb : containsSub fstr "\x7b\x7d" = false)
    (hp : (params.get "param0").asStr = none)
    (hs : (params.get "str0").asStr = none)
    (hn : (params.get "number0").asStr = none)
    (hu : (params.get "utime0").asStr = none) :
    format_string dateFmt fstr params = some fstr := by
  have hsp : splitBB fstr.data = [fstr.data] :=
    splitBB_of_no_placeholder fstr.data (by simpa [containsSub] using hnb)
  have ha : format_arg dateFmt params 0 = some "" := by
    unfold format_arg
    dsimp only
    rw [show ("param" ++ toString (0 : Nat) : String) = "param0" from rfl, hp,
      show ("str" ++ toString (0 : Nat) : String) = "str0" from rfl, hs,
      show ("number" ++ toString (0 : Nat) : String) = "number0" from rfl, hn,
      show ("utime" ++ toString (0 : Nat) : String) = "utime0" from rfl, hu]
  unfold format_string
  rw [hsp]
  unfold joinPieces
  rw [ha]
  simp only [joinPieces, Option.bind_eq_bind, Option.some_bind, Option.map_some]
  show some (String.mk (fstr.data ++ [] ++ [])) = some fstr
  cases fstr
  simp

/-- C5 (witness): the amended statement at the template `"hello"` and
the empty parameter document. -/
theorem format_string_no_placeholder_witness :
    format_string (fun _ => "") "hello" (Json.obj []) = some "hello" :=
  format_string_no_placeholder (fun _ => "") "hello" (Json.obj []) rfl rfl rfl rfl rfl

/-! ### C10: partiality of the template renderer -/

/-- C10: the renderer is not total: a `number0` value shorter than two
characters, or whose remainder after the first two characters is not
hexadecimal or overflows `u64` (resp. `u32` for `utime0`), makes
`format_arg` — and hence `format_string` on a template with a
placeholder — panic (modelled as `none`); only the `str0` path degrades
to the empty string when its hex decoding fails. -/
theorem format_arg_partiality :
    format_arg (fun _ => "") (Json.obj [("number0", Json.str "a")]) 0 = none ∧
    format_arg (fun _ => "") (Json.obj [("number0", Json.str "0xgg")]) 0 = none ∧
    format_arg (fun _ => "") (Json.obj [("number0", Json.str "0x10000000000000000")]) 0 = none ∧
    format_arg (fun _ => "") (Json.obj [("utime0", Json.str "0x123456789")]) 0 = none ∧
    format_string (fun _ => "") "a\x7b\x7db" (Json.obj [("number0", Json.str "a")]) = none ∧
    format_arg (fun _ => "") (Json.obj [("str0", Json.str "zz")]) 0 = some "" ∧
    format_string (fun _ => "") "a\x7b\x7db" (Json.obj [("str0", Json.str "zz")]) = some "ab" :=
  ⟨rfl, rfl, by decide, by decide, rfl, rfl, rfl⟩

/-! ### C3: instant-switch target adoption -/

/-- C3: after an instant action whose declared target is the PREV
sentinel, `enumerate_actions` compares the sentinel-resolved target
(here the previous state 2, a context present in the graph) with the
current state, but then adopts the RAW declared value: the engine ends
with `curr_state = STATE_PREV = 254`, logs "context not found" and
never enters context 2, instead of adopting the resolved target. -/
theorem instant_switch_adopts_raw_target :
    (switch_state envBase 6 stC3 1 true).isOk = true ∧
    (switch_state envBase 6 stC3 1 true).currOf = some STATE_PREV ∧
    (switch_state envBase 6 stC3 1 true).enteredOf = some [1] ∧
    (switch_state envBase 6 stC3 1 true).eventsOf =
      some [.log "Debot context #254 not found. Exit.", .log "one", .switch 1] ∧
    (commitSwitch stC3 1).eng.prev_state = 2 ∧ STATE_PREV ≠ 2 ∧
    (stC3.eng.state_machine.map DContext.id) = [1, 2] :=
  ⟨rfl, rfl, rfl, rfl, rfl, by decide, rfl⟩

/-! ### C6: SendMsg body-decoding ABI selection -/

/-- C6: the decoding ABI for a SendMsg is the self ABI when the
destination equals the self address and the configured target ABI
otherwise (observable through the decoder oracle echoing the ABI it was
given); but when the destination differs from the self address and no
target ABI is configured, `run_sendmsg` panics on `unwrap()` instead of
returning an error. -/
theorem run_sendmsg_abi_selection :
    (run_sendmsg envSend stBase "send" none false).isPanic = true ∧
    (run_sendmsg envSend stSendT "send" none false).errOf =
      some "failed to decode msg body: TABI" ∧
    (run_sendmsg envSendSelf stBase "send" none false).errOf =
      some "failed to decode msg body: A" ∧
    stBase.eng.target_abi = none :=
  ⟨rfl, rfl, rfl, rfl⟩

/-! ### C7: fetch behavior -/

/-- C7: `fetch` propagates a remote-call failure as an error and, on
success, replaces the context graph and resets the previous state to
EXIT; but when the `fetch` output lacks a well-formed `contexts` field
the engine panics on `unwrap()` instead of returning a failure. -/
theorem fetch_behavior :
    (fetch envFetchBad stBase).isPanic = true ∧
    (fetch envFetchFail stBase).isErr = true ∧
    (fetch envFetchOk stBase).isOk = true ∧
    (fetch envFetchOk stBase).prevOf = some STATE_EXIT ∧
    (match fetch envFetchOk stBase with
     | .ok _ st => st.eng.state_machine.map DContext.id
     | _ => []) = [7] :=
  ⟨rfl, rfl, rfl, rfl, rfl⟩

/-! ### C8: misc pass-through in argument resolution -/

/-- C8: for every action whose `misc` attribute differs from the
empty-cell sentinel, argument resolution returns exactly the document
with the single `misc` field and leaves the state — in particular the
front-end interaction trace — untouched: no input prompt is issued,
whatever the ABI declares. -/
theorem query_action_args_misc_passthrough (env : Env) (st : St) (act : DAction)
    (h : act.misc ≠ emptyCell) :
    query_action_args env st act = .ok (some (Json.obj [("misc", Json.str act.misc)])) st := by
  unfold query_action_args
  rw [if_pos h]

/-- C8 (witness): the pass-through at a concrete action with
`misc = "MV"`, over the inert environment. -/
theorem query_action_args_misc_passthrough_witness :
    query_action_args envBase stBase actMisc =
      .ok (some (Json.obj [("misc", Json.str "MV")])) stBase :=
  query_action_args_misc_passthrough envBase stBase actMisc (by decide)

/-! ### C9: option-bit independence in update_options -/

/-- C9: when `update_options` returns successfully after a
`getDebotOptions` call whose bitmask parses to `o`, each of the three
option bits independently controls exactly its own field: a clear bit
leaves its field unchanged, a set bit refreshes exactly that field from
the corresponding output field; the state-machine fields are never
touched. -/
theorem update_options_bit_independence (env : Env) (st : St) (out : RunOut)
    (optStr : String) (o : Nat) (st' : St)
    (hrun : run_get env st.eng "getDebotOptions" = .ok out)
    (hopt : (out.output.get "options").asStr = some optStr)
    (ho : parseHexBounded 256 (trim0x optStr.data) = some o)
    (hres : update_options env st = .ok () st') :
    st'.eng.curr_state = st.eng.curr_state ∧
    st'.eng.prev_state = st.eng.prev_state ∧
    st'.eng.state_machine = st.eng.state_machine ∧
    st'.eng.state = st.eng.state ∧
    (o.land 1 = 0 → st'.eng.abi = st.eng.abi) ∧
    (o.land 1 ≠ 0 → ∃ h, (out.output.get "debotAbi").asStr = some h ∧
        str_hex_to_utf8 h = some st'.eng.abi) ∧
    (o.land 2 = 0 → st'.eng.target_abi = st.eng.target_abi) ∧
    (o.land 2 ≠ 0 → ∃ h, (out.output.get "targetAbi").asStr = some h ∧
        st'.eng.target_abi = str_hex_to_utf8 h) ∧
    (o.land 4 = 0 → st'.eng.target_addr = st.eng.target_addr) ∧
    (o.land 4 ≠ 0 → ∃ s a, (out.output.get "targetAddr").asStr = some s ∧
        load_ton_address env s = .ok a ∧ st'.eng.target_addr = some a) := by
  unfold update_options at hres
  rw [hrun] at hres
  dsimp only at hres
  rw [hopt] at hres
  dsimp only at hres
  rw [ho] at hres
  dsimp only at hres
  by_cases h1 : o.land 1 = 0
  · rw [if_neg (not_not_intro h1)] at hres
    dsimp only at hres
    by_cases h2 : o.land 2 = 0
    · rw [if_neg (not_not_intro h2)] at hres
      dsimp only at hres
      by_cases h4 : o.land 4 = 0
      · rw [if_neg (not_not_intro h4)] at hres
        injection hres with _ hst
        subst hst
        exact ⟨rfl, rfl, rfl, rfl, fun _ => rfl, fun hc => absurd h1 hc,
          fun _ => rfl, fun hc => absurd h2 hc, fun _ => rfl, fun hc => absurd h4 hc⟩
      · rw [if_pos h4] at hres
        cases hd4 : (out.output.get "targetAddr").asStr with
        | none => rw [hd4] at hres; exact RRes.noConfusion hres
        | some s4 =>
          rw [hd4] at hres
          dsimp only at hres
          cases ha4 : load_ton_address env s4 with
          | error e => rw [ha4] at hres; exact RRes.noConfusion hres
          | ok a4 =>
            rw [ha4] at hres
            injection hres with _ hst
            subst hst
            exact ⟨rfl, rfl, rfl, rfl, fun _ => rfl, fun hc => absurd h1 hc,
              fun _ => rfl, fun hc => absurd h2 hc, fun hc => absurd hc h4,
              fun _ => ⟨s4, a4, rfl, ha4, rfl⟩⟩
    · rw [if_pos h2] at hres
      cases hd2 : (out.output.get "targetAbi").asStr with
      | none => rw [hd2] at hres; exact RRes.noConfusion hres
      | some s2 =>
        rw [hd2] at hres
        dsimp only at hres
        by_cases h4 : o.land 4 = 0
        · rw [if_neg (not_not_intro h4)] at hres
          injection hres with _ hst
          subst hst
          exact ⟨rfl, rfl, rfl, rfl, fun _ => rfl, fun hc => absurd h1 hc,
            fun hc => absurd hc h2, fun _ => ⟨s2, rfl, rfl⟩, fun _ => rfl,
            fun hc => absurd h4 hc⟩
        · rw [if_pos h4] at hres
          cases hd4 : (out.output.get "targetAddr").asStr with
          | none => rw [hd4] at hres; exact RRes.noConfusion hres
          | some s4 =>
            rw [hd4] at hres
            dsimp only at hres
            cases ha4 : load_ton_address env s4 with
            | error e => rw [ha4] at hres; exact RRes.noConfusion hres
            | ok a4 =>
              rw [ha4] at hres
              injection hres with _ hst
              subst hst
              exact ⟨rfl, rfl, rfl, rfl, fun _ => rfl, fun hc => absurd h1 hc,
                fun hc => absurd hc h2, fun _ => ⟨s2, rfl, rfl⟩, fun hc => absurd hc h4,
                fun _ => ⟨s4, a4, rfl, ha4, rfl⟩⟩
  · rw [if_pos h1] at hres
    cases hd1 : (out.output.get "debotAbi").asStr with
    | none => rw [hd1] at hres; exact RRes.noConfusion hres
    | some s1 =>
      rw [hd1] at hres
      dsimp only at hres
      cases hx1 : str_hex_to_utf8 s1 with
      | none => rw [hx1] at hres; exact RRes.noConfusion hres
      | some abi1 =>
        rw [hx1] at hres
        dsimp only at hres
        by_cases h2 : o.land 2 = 0
        · rw [if_neg (not_not_intro h2)] at hres
          dsimp only at hres
          by_cases h4 : o.land 4 = 0
          · rw [if_neg (not_not_intro h4)] at hres
            injection hres with _ hst
            subst hst
            exact ⟨rfl, rfl, rfl, rfl, fun hc => absurd hc h1, fun _ => ⟨s1, rfl, hx1⟩,
              fun _ => rfl, fun hc => absurd h2 hc, fun _ => rfl, fun hc => absurd h4 hc⟩
          · rw [if_pos h4] at hres
            cases hd4 : (out.output.get "targetAddr").asStr with
            | none => rw [hd4] at hres; exact RRes.noConfusion hres
            | some s4 =>
              rw [hd4] at hres
              dsimp only at hres
              cases ha4 : load_ton_address env s4 with
              | error e => rw [ha4] at hres; exact RRes.noConfusion hres
              | ok a4 =>
                rw [ha4] at hres
                injection hres with _ hst
                subst hst
                exact ⟨rfl, rfl, rfl, rfl, fun hc => absurd hc h1, fun _ => ⟨s1, rfl, hx1⟩,
                  fun _ => rfl, fun hc => absurd h2 hc, fun hc => absurd hc h4,
                  fun _ => ⟨s4, a4, rfl, ha4, rfl⟩⟩
        · rw [if_pos h2] at hres
          cases hd2 : (out.output.get "targetAbi").asStr with
          | none => rw [hd2] at hres; exact RRes.noConfusion hres
          | some s2 =>
            rw [hd2] at hres
            dsimp only at hres
            by_cases h4 : o.land 4 = 0
            · rw [if_neg (not_not_intro h4)] at hres
              injection hres with _ hst
              subst hst
              exact ⟨rfl, rfl, rfl, rfl, fun hc => absurd hc h1, fun _ => ⟨s1, rfl, hx1⟩,
                fun hc => absurd hc h2, fun _ => ⟨s2, rfl, rfl⟩, fun _ => rfl,
                fun hc => absurd h4 hc⟩
            · rw [if_pos h4] at hres
              cases hd4 : (out.output.get "targetAddr").asStr with
              | none => rw [hd4] at hres; exact RRes.noConfusion hres
              | some s4 =>
                rw [hd4] at hres
                dsimp only at hres
                cases ha4 : load_ton_address env s4 with
                | error e => rw [ha4] at hres; exact RRes.noConfusion hres
                | ok a4 =>
                  rw [ha4] at hres
                  injection hres with _ hst
                  subst hst
                  exact ⟨rfl, rfl, rfl, rfl, fun hc => absurd hc h1, fun _ => ⟨s1, rfl, hx1⟩,
                    fun hc => absurd hc h2, fun _ => ⟨s2, rfl, rfl⟩, fun hc => absurd hc h4,
                    fun _ => ⟨s4, a4, rfl, ha4, rfl⟩⟩

/-- C9 (witness): the bitmask `0x4` (only the target-address bit)
updates `target_addr` to the returned address and leaves the self ABI
and target ABI unchanged. -/
theorem update_options_bit_independence_witness :
    stOptAfter.eng.abi = stBase.eng.abi ∧
    stOptAfter.eng.target_abi = stBase.eng.target_abi ∧
    stOptAfter.eng.target_addr = some "T" :=
  have h := update_options_bit_independence envOpt stBase outOpt "0x4" 4 stOptAfter
    rfl rfl (by decide) rfl
  ⟨h.2.2.2.2.1 (by decide), h.2.2.2.2.2.2.1 (by decide), rfl⟩

/-! ### C4: error classification at the façade boundary -/

/-- C4: the classifier rewrites parameter-format errors (detected by
the "Wrong data format" substring) to `"invalid parameter"`; for an
inner error with code 3025 carrying a numeric `exit_code` it issues the
secondary `getErrorDescription` call and returns the hex-decoded UTF-8
`desc` of its output, falling back to the original inner message when
that lookup fails at any stage (call error, missing `desc`, hex or
UTF-8 decode failure) or when no numeric `exit_code` is present; every
other error keeps its original message (its display text for non-inner
errors). -/
theorem handle_sdk_err_classification (env : Env) (eng : Eng) :
    (∀ msg code data, containsSub msg "Wrong data format" = true →
      handle_sdk_err env eng (.innerSdk msg code data) = "invalid parameter") ∧
    (∀ msg data ec res hexStr bytes txt,
      containsSub msg "Wrong data format" = false →
      (data.get "exit_code").asInt = some ec →
      runRawSelf env eng "getErrorDescription"
        (some (Json.obj [("error", Json.num ec)])) true false = .ok res →
      (res.output.get "desc").asStr = some hexStr →
      hexDecode hexStr.data = some bytes →
      utf8Decode bytes = some txt →
      handle_sdk_err env eng (.innerSdk msg 3025 data) = String.mk txt) ∧
    (∀ msg data ec e,
      containsSub msg "Wrong data format" = false →
      (data.get "exit_code").asInt = some ec →
      runRawSelf env eng "getErrorDescription"
        (some (Json.obj [("error", Json.num ec)])) true false = .error e →
      handle_sdk_err env eng (.innerSdk msg 3025 data) = msg) ∧
    (∀ msg data ec res,
      containsSub msg "Wrong data format" = false →
      (data.get "exit_code").asInt = some ec →
      runRawSelf env eng "getErrorDescription"
        (some (Json.obj [("error", Json.num ec)])) true false = .ok res →
      (((res.output.get "desc").asStr).bind (fun h =>
        (hexDecode h.data).bind (fun bytes =>
          (utf8Decode bytes).map String.mk))) = none →
      handle_sdk_err env eng (.innerSdk msg 3025 data) = msg) ∧
    (∀ msg data,
      containsSub msg "Wrong data format" = false →
      (data.get "exit_code").asInt = none →
      handle_sdk_err env eng (.innerSdk msg 3025 data) = msg) ∧
    (∀ msg code data,
      containsSub msg "Wrong data format" = false → code ≠ 3025 →
      handle_sdk_err env eng (.innerSdk msg code data) = msg) ∧
    (∀ t, handle_sdk_err env eng (.other t) = t) := by
  refine ⟨?_, ?_, ?_, ?_, ?_, ?_, ?_⟩
  · intro msg code data h
    unfold handle_sdk_err
    dsimp only
    rw [h]
    rfl
  · intro msg data ec res hexStr bytes txt h hec hrun hdesc hhex hutf
    unfold handle_sdk_err
    dsimp only
    rw [h]
    simp only [Bool.false_eq_true, if_false, eq_self_iff_true, if_true]
    rw [hec]
    dsimp only
    rw [hrun]
    dsimp only
    rw [hdesc]
    simp only [Option.some_bind]
    rw [hhex]
    simp only [Option.some_bind]
    rw [hutf]
    rfl
  · intro msg data ec e h hec hrun
    unfold handle_sdk_err
    dsimp only
    rw [h]
    simp only [Bool.false_eq_true, if_false, eq_self_iff_true, if_true]
    rw [hec]
    dsimp only
    rw [hrun]
  · intro msg data ec res h hec hrun hnone
    unfold handle_sdk_err
    dsimp only
    rw [h]
    simp only [Bool.false_eq_true, if_false, eq_self_iff_true, if_true]
    rw [hec]
    dsimp only
    rw [hrun]
    dsimp only
    rw [hnone]
    rfl
  · intro msg data h hec
    unfold handle_sdk_err
    dsimp only
    rw [h]
    simp only [Bool.false_eq_true, if_false, eq_self_iff_true, if_true]
    rw [hec]
  · intro msg code data h hcode
    unfold handle_sdk_err
    dsimp only
    rw [h]
    simp only [Bool.false_eq_true, if_false, if_neg hcode]
  · intro t
    rfl

/-- C4 (witness): a contract exception (code 3025, exit code 11) whose
description lookup succeeds with the hex encoding of `"E"` is reported
as `"E"`. -/
theorem handle_sdk_err_classification_witness :
    handle_sdk_err envDesc engBase
      (.innerSdk "boom" 3025 (Json.obj [("exit_code", Json.num 11)])) = "E" :=
  (handle_sdk_err_classification envDesc engBase).2.1 "boom"
    (Json.obj [("exit_code", Json.num 11)]) 11
    { output := Json.obj [("desc", .str "45")], account := none }
    "45" [69] ['E'] rfl rfl rfl rfl rfl rfl

/-! ### Core-preservation lemmas -/

/-- Reflexivity of `coreEq`. -/
theorem coreEq_rfl (st : St) : coreEq st st := ⟨rfl, rfl, rfl, rfl⟩

/-- Transitivity of `coreEq`. -/
theorem coreEq_trans {a b c : St} (h1 : coreEq a b) (h2 : coreEq b c) : coreEq a c :=
  ⟨h2.1.trans h1.1, h2.2.1.trans h1.2.1, h2.2.2.1.trans h1.2.2.1, h2.2.2.2.trans h1.2.2.2⟩

/-- Projection of `coreEq` to `partEq`. -/
theorem partEq_of_coreEq {a b : St} (h : coreEq a b) : partEq a b :=
  ⟨h.2.1, h.2.2.1, h.2.2.2⟩

/-- Composing a core-preserving step with a part-preserving one. -/
theorem partEq_trans_core {a b c : St} (h1 : coreEq a b) (h2 : partEq b c) : partEq a c :=
  ⟨h2.1.trans h1.2.1, h2.2.1.trans h1.2.2.1, h2.2.2.trans h1.2.2.2⟩

/-- Core preservation transported along a kernel equation. -/
theorem currInv_of_coreEq {a b : St} (h : coreEq a b) (hinv : currInv a) : currInv b := by
  unfold currInv at hinv ⊢
  rw [h.1, h.2.2.1, h.2.2.2]
  exact hinv

/-- Lemma: `run_debot` preserves the state-machine core. -/
theorem run_debot_core (env : Env) (st : St) (name : String) (args : Option Json) :
    corePres st (run_debot env st name args) := by
  unfold run_debot
  cases run env st.eng false name args true true with
  | error e => exact coreEq_rfl st
  | ok res =>
    dsimp only
    cases res.account with
    | none => exact trivial
    | some acc => exact ⟨rfl, rfl, rfl, rfl⟩

/-- Lemma: `update_options` preserves the state-machine core. -/
theorem update_options_core (env : Env) (st : St) :
    corePres st (update_options env st) := by
  unfold update_options
  cases run_get env st.eng "getDebotOptions" with
  | error e => exact coreEq_rfl st
  | ok params =>
    dsimp only
    cases (params.output.get "options").asStr with
    | none => exact trivial
    | some optStr =>
      dsimp only
      cases parseHexBounded 256 (trim0x optStr.data) with
      | none => exact trivial
      | some options =>
        dsimp only
        by_cases h1 : options.land 1 ≠ 0
        · rw [if_pos h1]
          cases (params.output.get "debotAbi").asStr with
          | none => exact trivial
          | some habi =>
            dsimp only
            cases str_hex_to_utf8 habi with
            | none => exact coreEq_rfl st
            | some s1 =>
              dsimp only
              by_cases h2 : options.land 2 ≠ 0
              · rw [if_pos h2]
                cases (params.output.get "targetAbi").asStr with
                | none => exact trivial
                | some t2 =>
                  dsimp only
                  by_cases h4 : options.land 4 ≠ 0
                  · rw [if_pos h4]
                    cases (params.output.get "targetAddr").asStr with
                    | none => exact trivial
                    | some a4 =>
                      dsimp only
                      cases load_ton_address env a4 with
                      | error e => exact ⟨rfl, rfl, rfl, rfl⟩
                      | ok a => exact ⟨rfl, rfl, rfl, rfl⟩
                  · rw [if_neg h4]
                    exact ⟨rfl, rfl, rfl, rfl⟩
              · rw [if_neg h2]
                dsimp only
                by_cases h4 : options.land 4 ≠ 0
                · rw [if_pos h4]
                  cases (params.output.get "targetAddr").asStr with
                  | none => exact trivial
                  | some a4 =>
                    dsimp only
                    cases load_ton_address env a4 with
                    | error e => exact ⟨rfl, rfl, rfl, rfl⟩
                    | ok a => exact ⟨rfl, rfl, rfl, rfl⟩
                · rw [if_neg h4]
                  exact ⟨rfl, rfl, rfl, rfl⟩
        · rw [if_neg h1]
          dsimp only
          by_cases h2 : options.land 2 ≠ 0
          · rw [if_pos h2]
            cases (params.output.get "targetAbi").asStr with
            | none => exact trivial
            | some t2 =>
              dsimp only
              by_cases h4 : options.land 4 ≠ 0
              · rw [if_pos h4]
                cases (params.output.get "targetAddr").asStr with
                | none => exact trivial
                | some a4 =>
                  dsimp only
                  cases load_ton_address env a4 with
                  | error e => exact ⟨rfl, rfl, rfl, rfl⟩
                  | ok a => exact ⟨rfl, rfl, rfl, rfl⟩
              · rw [if_neg h4]
                exact ⟨rfl, rfl, rfl, rfl⟩
          · rw [if_neg h2]
            dsimp only
            by_cases h4 : options.land 4 ≠ 0
            · rw [if_pos h4]
              cases (params.output.get "targetAddr").asStr with
              | none => exact trivial
              | some a4 =>
                dsimp only
                cases load_ton_address env a4 with
                | error e => exact ⟨rfl, rfl, rfl, rfl⟩
                | ok a => exact ⟨rfl, rfl, rfl, rfl⟩
            · rw [if_neg h4]
              exact coreEq_rfl st

/-- Transport core preservation along a known-equal start state. -/
theorem corePres_of_eq {α : Type} {st st1 : St} {r : RRes α} (h : coreEq st st1)
    (hp : corePres st1 r) : corePres st r := by
  cases r with
  | ok a st2 => exact coreEq_trans h hp
  | err e st2 => exact coreEq_trans h hp
  | panic => trivial
  | fuelOut => trivial

/-- Extract the success case of a core-preservation fact. -/
theorem coreEq_of_ok {α : Type} {st st2 : St} {r : RRes α} {v : α}
    (hp : corePres st r) (h : r = .ok v st2) : coreEq st st2 := by
  rw [h] at hp
  exact hp

/-- Extract the error case of a core-preservation fact. -/
theorem coreEq_of_err {α : Type} {st st2 : St} {r : RRes α} {e : String}
    (hp : corePres st r) (h : r = .err e st2) : coreEq st st2 := by
  rw [h] at hp
  exact hp

/-- The prompting loop only appends input events. -/
theorem gatherArgs_core (env : Env) :
    ∀ (l : List Json) (st : St) (obj o : List (String × Json)) (st' : St),
      gatherArgs env st obj l = some (o, st') → coreEq st st'
  | [], st, obj, o, st', h => by
    unfold gatherArgs at h
    injection h with h1
    injection h1 with _ h2
    rw [← h2]
    exact coreEq_rfl st
  | arg :: rest, st, obj, o, st', h => by
    unfold gatherArgs at h
    cases hn : (arg.get "name").asStr with
    | none => rw [hn] at h; exact Option.noConfusion h
    | some argName =>
      rw [hn] at h
      dsimp only at h
      cases ht : (arg.get "type").asStr with
      | none => rw [ht] at h; exact Option.noConfusion h
      | some ty =>
        rw [ht] at h
        dsimp only at h
        have ih := gatherArgs_core env rest (inputEv st) _ o st' h
        exact coreEq_trans ⟨rfl, rfl, rfl, rfl⟩ ih

/-- Lemma: `query_action_args` preserves the state-machine core. -/
theorem query_action_args_core (env : Env) (st : St) (act : DAction) :
    corePres st (query_action_args env st act) := by
  unfold query_action_args
  by_cases hm : act.misc ≠ emptyCell
  · rw [if_pos hm]
    exact coreEq_rfl st
  · rw [if_neg hm]
    cases env.parseJson st.eng.abi with
    | none => exact trivial
    | some abiJson =>
      dsimp only
      cases (abiJson.get "functions").asArr with
      | none => exact trivial
      | some functions =>
        dsimp only
        cases findFunc functions act.name with
        | none => exact trivial
        | some fo =>
          cases fo with
          | none => exact coreEq_rfl st
          | some f =>
            dsimp only
            cases (f.get "inputs").asArr with
            | none => exact trivial
            | some arguments =>
              dsimp only
              cases hg : gatherArgs env st [] arguments with
              | none => exact trivial
              | some p =>
                cases p with
                | mk o st1 =>
                  exact gatherArgs_core env arguments st [] o st1 hg

/-- Lemma: `run_action` preserves the state-machine core. -/
theorem run_action_core (env : Env) (st : St) (action : DAction) :
    corePres st (run_action env st action) := by
  unfold run_action
  cases hq : query_action_args env st action with
  | ok args st1 =>
    dsimp only
    have h1 : coreEq st st1 := coreEq_of_ok (query_action_args_core env st action) hq
    cases hr : run_debot env st1 action.name args with
    | ok output st2 =>
      dsimp only
      have h12 := coreEq_trans h1 (coreEq_of_ok (run_debot_core env st1 action.name args) hr)
      by_cases hn : output.isNull = true
      · rw [if_pos hn]
        exact h12
      · rw [if_neg hn]
        cases decodeActions (output.get "actions") with
        | none => exact trivial
        | some v => exact h12
    | err e st2 =>
      exact coreEq_trans h1 (coreEq_of_err (run_debot_core env st1 action.name args) hr)
    | panic => exact trivial
    | fuelOut => exact trivial
  | err e st1 =>
    exact coreEq_of_err (query_action_args_core env st action) hq
  | panic => exact trivial
  | fuelOut => exact trivial

/-- Lemma: `call_target` preserves the state-machine core. -/
theorem call_target_core (env : Env) (st : St) (dest abi func : String) (args : Json)
    (hasKeys : Bool) (state : Option (List Nat)) :
    corePres st (call_target env st dest abi func args hasKeys state) := by
  unfold call_target
  cases load_ton_address env dest with
  | error e => exact coreEq_rfl st
  | ok addr =>
    dsimp only
    cases env.createRunMessage addr abi func args hasKeys with
    | error e => exact coreEq_rfl st
    | ok msg =>
      dsimp only
      cases pack_state env msg state with
      | error e => exact coreEq_rfl st
      | ok msg1 =>
        dsimp only
        cases env.processMessage msg1 abi func false with
        | error e => exact ⟨rfl, rfl, rfl, rfl⟩
        | ok out => exact ⟨rfl, rfl, rfl, rfl⟩

/-- Lemma: `run_sendmsg` preserves the state-machine core. -/
theorem run_sendmsg_core (env : Env) (st : St) (name : String) (args : Option Json)
    (hasKeys : Bool) : corePres st (run_sendmsg env st name args hasKeys) := by
  unfold run_sendmsg
  cases hr : run_debot env st name args with
  | ok result st1 =>
    dsimp only
    have h1 : coreEq st st1 := coreEq_of_ok (run_debot_core env st name args) hr
    cases (result.get "dest").asStr with
    | none => exact trivial
    | some dest =>
      dsimp only
      cases (result.get "body").asStr with
      | none => exact trivial
      | some body =>
        dsimp only
        cases (match (result.get "state").asStr with
               | none => Except.ok (none : Option (List Nat))
               | some v =>
                 (env.base64Decode v).map some |>.mapError
                   (fun e => "cannot decode state: " ++ e)) with
        | error e => exact h1
        | ok stateBytes =>
          dsimp only
          cases load_ton_address env dest with
          | error e => exact h1
          | ok destAddr =>
            dsimp only
            cases (if destAddr = st1.eng.addr then some st1.eng.abi
                   else st1.eng.target_abi) with
            | none => exact trivial
            | some abi =>
              dsimp only
              cases env.base64Decode body with
              | error e => exact trivial
              | ok bodyBytes =>
                dsimp only
                cases (env.decodeInputBody abi bodyBytes).mapError
                    (fun e => "failed to decode msg body: " ++ e) with
                | error e => exact h1
                | ok p =>
                  dsimp only
                  cases p with
                  | mk fn output =>
                    exact corePres_of_eq h1
                      (call_target_core env st1 dest abi fn output hasKeys stateBytes)
  | err e st1 => exact coreEq_of_err (run_debot_core env st name args) hr
  | panic => exact trivial
  | fuelOut => exact trivial

/-- Lemma: `run_getmethod` preserves the state-machine core. -/
theorem run_getmethod_core (env : Env) (st : St) (getmethod : String) (args : Option Json)
    (result_handler : String) :
    corePres st (run_getmethod env st getmethod args result_handler) := by
  unfold run_getmethod
  cases hu : update_options env st with
  | ok u st1 =>
    dsimp only
    have h1 : coreEq st st1 := coreEq_of_ok (update_options_core env st) hu
    cases run env st1.eng true getmethod args false false with
    | error e => exact h1
    | ok result =>
      dsimp only
      exact corePres_of_eq h1 (run_debot_core env st1 result_handler (some result.output))
  | err e st1 => exact coreEq_of_err (update_options_core env st) hu
  | panic => exact trivial
  | fuelOut => exact trivial

/-- Lemma: `handle_action` preserves the state-machine core: no action kind
touches the current/previous state, the context graph, or the record of
entered contexts. -/
theorem handle_action_core (env : Env) (st : St) (a : DAction) :
    corePres st (handle_action env st a) := by
  unfold handle_action
  cases a.actionType with
  | empty => exact coreEq_rfl st
  | runAction => exact run_action_core env st a
  | runMethod =>
    cases a.func_attr with
    | none => exact trivial
    | some func =>
      dsimp only
      cases a.args_attr with
      | some getter =>
        dsimp only
        cases hr : run_debot env st getter none with
        | ok res st1 =>
          dsimp only
          have h1 : coreEq st st1 := coreEq_of_ok (run_debot_core env st getter none) hr
          cases hg : run_getmethod env st1 func (some res) a.name with
          | ok v st2 =>
            exact coreEq_trans h1
              (coreEq_of_ok (run_getmethod_core env st1 func (some res) a.name) hg)
          | err e st2 =>
            exact coreEq_trans h1
              (coreEq_of_err (run_getmethod_core env st1 func (some res) a.name) hg)
          | panic => exact trivial
          | fuelOut => exact trivial
        | err e st1 => exact coreEq_of_err (run_debot_core env st getter none) hr
        | panic => exact trivial
        | fuelOut => exact trivial
      | none =>
        dsimp only
        cases hg : run_getmethod env st func none a.name with
        | ok v st2 => exact coreEq_of_ok (run_getmethod_core env st func none a.name) hg
        | err e st2 => exact coreEq_of_err (run_getmethod_core env st func none a.name) hg
        | panic => exact trivial
        | fuelOut => exact trivial
  | sendMsg =>
    dsimp only
    have h0 : coreEq st (if a.sign_by_user then loadKeyEv st else st) := by
      cases a.sign_by_user
      · exact coreEq_rfl st
      · exact ⟨rfl, rfl, rfl, rfl⟩
    cases hr : run_sendmsg env (if a.sign_by_user then loadKeyEv st else st) a.name
        (if a.misc ≠ emptyCell then some (Json.obj [("misc", Json.str a.misc)]) else none)
        a.sign_by_user with
    | ok result st1 =>
      dsimp only
      have h1 : coreEq st st1 :=
        coreEq_trans h0 (coreEq_of_ok (run_sendmsg_core env _ a.name _ a.sign_by_user) hr)
      cases result.isNull <;> exact coreEq_trans h1 ⟨rfl, rfl, rfl, rfl⟩
    | err e st1 =>
      exact coreEq_trans h0 (coreEq_of_err (run_sendmsg_core env _ a.name _ a.sign_by_user) hr)
    | panic => exact trivial
    | fuelOut => exact trivial
  | invoke =>
    cases hr : run_debot env st a.name none with
    | ok invokeArgs st1 =>
      dsimp only
      have h1 : coreEq st st1 := coreEq_of_ok (run_debot_core env st a.name none) hr
      cases (invokeArgs.get "debot").asStr with
      | none => exact trivial
      | some dstr =>
        dsimp only
        cases load_ton_address env dstr with
        | error e => exact h1
        | ok daddr =>
          dsimp only
          cases decodeAction (invokeArgs.get "action") with
          | none => exact trivial
          | some dact =>
            dsimp only
            cases env.invokeDebot daddr dact with
            | error e => exact coreEq_trans h1 ⟨rfl, rfl, rfl, rfl⟩
            | ok u => exact coreEq_trans h1 ⟨rfl, rfl, rfl, rfl⟩
    | err e st1 => exact coreEq_of_err (run_debot_core env st a.name none) hr
    | panic => exact trivial
    | fuelOut => exact trivial
  | print =>
    cases a.format_args with
    | none => exact ⟨rfl, rfl, rfl, rfl⟩
    | some getter =>
      dsimp only
      cases hr : run_debot env st getter
          (if a.misc ≠ emptyCell then some (Json.obj [("misc", Json.str a.misc)])
           else none) with
      | ok params st1 =>
        dsimp only
        have h1 : coreEq st st1 := coreEq_of_ok (run_debot_core env st getter _) hr
        cases format_string env.dateFmt a.name params with
        | none => exact trivial
        | some label => exact coreEq_trans h1 ⟨rfl, rfl, rfl, rfl⟩
      | err e st1 => exact coreEq_of_err (run_debot_core env st getter _) hr
      | panic => exact trivial
      | fuelOut => exact trivial
  | goto => exact coreEq_rfl st
  | callEngine =>
    cases a.args_attr with
    | some getter =>
      dsimp only
      cases hr : run_debot env st getter none with
      | ok res st1 =>
        dsimp only
        have h1 : coreEq st st1 := coreEq_of_ok (run_debot_core env st getter none) hr
        have h2 : coreEq st (if a.sign_by_user then loadKeyEv st1 else st1) := by
          cases a.sign_by_user
          · exact h1
          · exact coreEq_trans h1 ⟨rfl, rfl, rfl, rfl⟩
        cases call_routine env a.name res.render a.sign_by_user with
        | error e => exact h2
        | ok rres =>
          dsimp only
          cases a.func_attr with
          | none => exact h2
          | some setter =>
            dsimp only
            cases hrb : run_debot env (if a.sign_by_user then loadKeyEv st1 else st1)
                setter (some (Json.obj [("arg1", Json.str rres)])) with
            | ok v st3 =>
              exact coreEq_trans h2 (coreEq_of_ok (run_debot_core env _ setter _) hrb)
            | err e st3 =>
              exact coreEq_trans h2 (coreEq_of_err (run_debot_core env _ setter _) hrb)
            | panic => exact trivial
            | fuelOut => exact trivial
      | err e st1 => exact coreEq_of_err (run_debot_core env st getter none) hr
      | panic => exact trivial
      | fuelOut => exact trivial
    | none =>
      dsimp only
      have h2 : coreEq st (if a.sign_by_user then loadKeyEv st else st) := by
        cases a.sign_by_user
        · exact coreEq_rfl st
        · exact ⟨rfl, rfl, rfl, rfl⟩
      cases call_routine env a.name a.desc a.sign_by_user with
      | error e => exact h2
      | ok rres =>
        dsimp only
        cases a.func_attr with
        | none => exact h2
        | some setter =>
          dsimp only
          cases hrb : run_debot env (if a.sign_by_user then loadKeyEv st else st)
              setter (some (Json.obj [("arg1", Json.str rres)])) with
          | ok v st3 =>
            exact coreEq_trans h2 (coreEq_of_ok (run_debot_core env _ setter _) hrb)
          | err e st3 =>
            exact coreEq_trans h2 (coreEq_of_err (run_debot_core env _ setter _) hrb)
          | panic => exact trivial
          | fuelOut => exact trivial
  | unsupported => exact ⟨rfl, rfl, rfl, rfl⟩

/-- The instant-action queue of `enumerate_actions` preserves previous
state, graph and entered record; it also preserves the current state
except when it signals an instant switch. -/
theorem procQueue_core (env : Env) :
    ∀ (fuel : Nat) (q : List DAction) (st : St),
      (∀ st', procQueue env fuel st q = .ok false st' → coreEq st st') ∧
      (∀ st', procQueue env fuel st q = .ok true st' → partEq st st') ∧
      (∀ e st', procQueue env fuel st q = .err e st' → coreEq st st') := by
  intro fuel
  induction fuel with
  | zero =>
    intro q st
    cases q with
    | nil =>
      refine ⟨?_, ?_, ?_⟩
      · intro st' h
        injection h with _ hst
        rw [← hst]
        exact coreEq_rfl st
      · intro st' h
        injection h with hb
        exact Bool.noConfusion hb
      · intro e st' h
        exact RRes.noConfusion h
    | cons a rest =>
      exact ⟨fun _ h => RRes.noConfusion h, fun _ h => RRes.noConfusion h,
        fun _ _ h => RRes.noConfusion h⟩
  | succ f ih =>
    intro q st
    cases q with
    | nil =>
      refine ⟨?_, ?_, ?_⟩
      · intro st' h
        injection h with _ hst
        rw [← hst]
        exact coreEq_rfl st
      · intro st' h
        injection h with hb
        exact Bool.noConfusion hb
      · intro e st' h
        exact RRes.noConfusion h
    | cons act rest =>
      unfold procQueue
      by_cases hin : act.is_instant = true
      · rw [if_pos hin]
        dsimp only
        have h0 : coreEq st (if act.desc.length ≠ 0 then logEv st act.desc else st) := by
          by_cases hd : act.desc.length ≠ 0
          · rw [if_pos hd]
            exact ⟨rfl, rfl, rfl, rfl⟩
          · rw [if_neg hd]
            exact coreEq_rfl st
        cases hha : handle_action env (if act.desc.length ≠ 0 then logEv st act.desc else st)
            act with
        | ok ov st2 =>
          dsimp only
          have h2 : coreEq st st2 :=
            coreEq_trans h0 (coreEq_of_ok (handle_action_core env _ act) hha)
          by_cases htg : (if act.toId = STATE_CURRENT then st2.eng.curr_state
              else if act.toId = STATE_PREV then st2.eng.prev_state
              else act.toId) ≠ st2.eng.curr_state
          · rw [if_pos htg]
            refine ⟨?_, ?_, ?_⟩
            · intro st' h
              injection h with hb
              exact Bool.noConfusion hb
            · intro st' h
              injection h with _ hst
              rw [← hst]
              exact partEq_trans_core h2 ⟨rfl, rfl, rfl⟩
            · intro e st' h
              exact RRes.noConfusion h
          · rw [if_neg htg]
            have ihh := ih (rest ++ ov.getD []) st2
            refine ⟨?_, ?_, ?_⟩
            · intro st' h
              exact coreEq_trans h2 (ihh.1 st' h)
            · intro st' h
              exact partEq_trans_core h2 (ihh.2.1 st' h)
            · intro e st' h
              exact coreEq_trans h2 (ihh.2.2 e st' h)
        | err e2 st2 =>
          refine ⟨?_, ?_, ?_⟩
          · intro st' h
            exact RRes.noConfusion h
          · intro st' h
            exact RRes.noConfusion h
          · intro e st' h
            injection h with he hst
            rw [← hst]
            exact coreEq_trans h0 (coreEq_of_err (handle_action_core env _ act) hha)
        | panic =>
          exact ⟨fun _ h => RRes.noConfusion h, fun _ h => RRes.noConfusion h,
            fun _ _ h => RRes.noConfusion h⟩
        | fuelOut =>
          exact ⟨fun _ h => RRes.noConfusion h, fun _ h => RRes.noConfusion h,
            fun _ _ h => RRes.noConfusion h⟩
      · rw [if_neg hin]
        by_cases hec : act.is_engine_call = true
        · rw [if_pos hec]
          cases hha : handle_action env st act with
          | ok v st2 =>
            dsimp only
            have h2 : coreEq st st2 := coreEq_of_ok (handle_action_core env st act) hha
            have ihh := ih rest st2
            refine ⟨?_, ?_, ?_⟩
            · intro st' h
              exact coreEq_trans h2 (ihh.1 st' h)
            · intro st' h
              exact partEq_trans_core h2 (ihh.2.1 st' h)
            · intro e st' h
              exact coreEq_trans h2 (ihh.2.2 e st' h)
          | err e2 st2 =>
            refine ⟨?_, ?_, ?_⟩
            · intro st' h
              exact RRes.noConfusion h
            · intro st' h
              exact RRes.noConfusion h
            · intro e st' h
              injection h with he hst
              rw [← hst]
              exact coreEq_of_err (handle_action_core env st act) hha
          | panic =>
            exact ⟨fun _ h => RRes.noConfusion h, fun _ h => RRes.noConfusion h,
              fun _ _ h => RRes.noConfusion h⟩
          | fuelOut =>
            exact ⟨fun _ h => RRes.noConfusion h, fun _ h => RRes.noConfusion h,
              fun _ _ h => RRes.noConfusion h⟩
        · rw [if_neg hec]
          have ihh := ih rest (showEv st act)
          refine ⟨?_, ?_, ?_⟩
          · intro st' h
            exact coreEq_trans ⟨rfl, rfl, rfl, rfl⟩ (ihh.1 st' h)
          · intro st' h
            exact partEq_trans_core (⟨rfl, rfl, rfl, rfl⟩ : coreEq st (showEv st act))
              (ihh.2.1 st' h)
          · intro e st' h
            exact coreEq_trans ⟨rfl, rfl, rfl, rfl⟩ (ihh.2.2 e st' h)

/-- The outer action loop of `enumerate_actions` preserves previous
state, graph and entered record (and the current state unless an
instant switch was signalled). -/
theorem enumLoop_core (env : Env) (fuel : Nat) :
    ∀ (acts : List DAction) (st : St),
      (∀ st', enumLoop env fuel st acts = .ok false st' → coreEq st st') ∧
      (∀ st', enumLoop env fuel st acts = .ok true st' → partEq st st') ∧
      (∀ e st', enumLoop env fuel st acts = .err e st' → coreEq st st')
  | [], st => by
    refine ⟨?_, ?_, ?_⟩
    · intro st' h
      injection h with _ hst
      rw [← hst]
      exact coreEq_rfl st
    · intro st' h
      injection h with hb
      exact Bool.noConfusion hb
    · intro e st' h
      exact RRes.noConfusion h
  | a :: rest, st => by
    unfold enumLoop
    cases hp : procQueue env fuel st [a] with
    | ok b st1 =>
      cases b with
      | false =>
        dsimp only
        have h1 : coreEq st st1 := (procQueue_core env fuel [a] st).1 st1 hp
        have ihh := enumLoop_core env fuel rest st1
        refine ⟨?_, ?_, ?_⟩
        · intro st' h
          exact coreEq_trans h1 (ihh.1 st' h)
        · intro st' h
          exact partEq_trans_core h1 (ihh.2.1 st' h)
        · intro e st' h
          exact coreEq_trans h1 (ihh.2.2 e st' h)
      | true =>
        dsimp only
        refine ⟨?_, ?_, ?_⟩
        · intro st' h
          injection h with hb
          exact Bool.noConfusion hb
        · intro st' h
          injection h with _ hst
          rw [← hst]
          exact (procQueue_core env fuel [a] st).2.1 st1 hp
        · intro e st' h
          exact RRes.noConfusion h
    | err e2 st1 =>
      dsimp only
      refine ⟨?_, ?_, ?_⟩
      · intro st' h
        exact RRes.noConfusion h
      · intro st' h
        exact RRes.noConfusion h
      · intro e st' h
        injection h with he hst
        rw [← hst]
        exact (procQueue_core env fuel [a] st).2.2 e2 st1 hp
    | panic =>
      exact ⟨fun _ h => RRes.noConfusion h, fun _ h => RRes.noConfusion h,
        fun _ _ h => RRes.noConfusion h⟩
    | fuelOut =>
      exact ⟨fun _ h => RRes.noConfusion h, fun _ h => RRes.noConfusion h,
        fun _ _ h => RRes.noConfusion h⟩

/-- The instant-switch loop of `switch_state` establishes the current
state invariant whenever control returns, and never touches the
previous state or the context graph. A loop iteration always starts
with `curr_state` equal to the target it looks up. -/
theorem switchLoop_inv (env : Env) :
    ∀ (fuel : Nat) (st : St) (t : Nat), st.eng.curr_state = t →
      (∀ u st', switchLoop env fuel st t = .ok u st' →
        currInv st' ∧ st'.eng.prev_state = st.eng.prev_state ∧
        st'.eng.state_machine = st.eng.state_machine) ∧
      (∀ e st', switchLoop env fuel st t = .err e st' →
        currInv st' ∧ st'.eng.prev_state = st.eng.prev_state ∧
        st'.eng.state_machine = st.eng.state_machine)
  | 0, st, t, _ => by
    exact ⟨fun _ _ h => RRes.noConfusion h, fun _ _ h => RRes.noConfusion h⟩
  | fuel + 1, st, t, hc => by
    unfold switchLoop
    cases hf : st.eng.state_machine.find? (fun c => c.id == t) with
    | some ctx =>
      dsimp only
      cases he : enumerate_actions env fuel (enterEv st t ctx.desc) ctx with
      | ok b st2 =>
        cases b with
        | false =>
          dsimp only
          have h2 : coreEq (enterEv st t ctx.desc) st2 :=
            (enumLoop_core env fuel ctx.actions (enterEv st t ctx.desc)).1 st2 he
          constructor
          · intro u st' h
            injection h with _ hst
            rw [← hst]
            refine ⟨?_, h2.2.1, h2.2.2.1⟩
            unfold currInv
            left
            rw [h2.2.2.2, h2.1]
            show (t :: st.entered).head? = some st.eng.curr_state
            rw [hc]
            rfl
          · intro e st' h
            exact RRes.noConfusion h
        | true =>
          dsimp only
          have h2 : partEq (enterEv st t ctx.desc) st2 :=
            (enumLoop_core env fuel ctx.actions (enterEv st t ctx.desc)).2.1 st2 he
          have ihv := switchLoop_inv env fuel st2 st2.eng.curr_state rfl
          constructor
          · intro u st' h
            obtain ⟨hinv, hprev, hmach⟩ := ihv.1 u st' h
            exact ⟨hinv, hprev.trans h2.1, hmach.trans h2.2.1⟩
          · intro e st' h
            obtain ⟨hinv, hprev, hmach⟩ := ihv.2 e st' h
            exact ⟨hinv, hprev.trans h2.1, hmach.trans h2.2.1⟩
      | err e2 st2 =>
        dsimp only
        have h2 : coreEq (enterEv st t ctx.desc) st2 :=
          (enumLoop_core env fuel ctx.actions (enterEv st t ctx.desc)).2.2 e2 st2 he
        constructor
        · intro u st' h
          exact RRes.noConfusion h
        · intro e st' h
          injection h with he' hst
          rw [← hst]
          refine ⟨?_, h2.2.1, h2.2.2.1⟩
          unfold currInv
          left
          rw [h2.2.2.2, h2.1]
          show (t :: st.entered).head? = some st.eng.curr_state
          rw [hc]
          rfl
      | panic =>
        exact ⟨fun _ _ h => RRes.noConfusion h, fun _ _ h => RRes.noConfusion h⟩
      | fuelOut =>
        exact ⟨fun _ _ h => RRes.noConfusion h, fun _ _ h => RRes.noConfusion h⟩
    | none =>
      dsimp only
      by_cases ht : t = STATE_EXIT
      · rw [if_pos ht]
        constructor
        · intro u st' h
          injection h with _ hst
          rw [← hst]
          refine ⟨?_, rfl, rfl⟩
          unfold currInv
          right
          left
          show st.eng.curr_state = STATE_EXIT
          rw [hc, ht]
        · intro e st' h
          exact RRes.noConfusion h
      · rw [if_neg ht]
        constructor
        · intro u st' h
          injection h with _ hst
          rw [← hst]
          refine ⟨?_, rfl, rfl⟩
          unfold currInv
          right
          right
          intro c hcm
          show c.id ≠ st.eng.curr_state
          rw [hc]
          have := List.find?_eq_none.mp hf c hcm
          simpa using this
        · intro e st' h
          exact RRes.noConfusion h

/-- Lemma: `switch_state` written through `resolveTarget`. -/
theorem switch_state_eq (env : Env) (fuel : Nat) (st : St) (t : Nat) (f : Bool) :
    switch_state env fuel st t f =
      (if resolveTarget st t = STATE_EXIT then .ok () (switchEv st STATE_EXIT)
       else if resolveTarget st t ≠ st.eng.curr_state ∨ f = true then
         switchLoop env fuel (commitSwitch st (resolveTarget st t)) (resolveTarget st t)
       else .ok () st) := rfl

/-- Lemma: `switch_state` preserves the current-state invariant and sets the
previous state exactly on committed transitions. -/
theorem switch_state_inv (env : Env) (fuel : Nat) (st : St) (hinv : currInv st) :
    (∀ t f u st', switch_state env fuel st t f = .ok u st' →
      currInv st' ∧
      (resolveTarget st t = STATE_EXIT ∨
        (resolveTarget st t = st.eng.curr_state ∧ f = false) →
        st'.eng.prev_state = st.eng.prev_state) ∧
      (resolveTarget st t ≠ STATE_EXIT →
        (resolveTarget st t ≠ st.eng.curr_state ∨ f = true) →
        st'.eng.prev_state = st.eng.curr_state)) ∧
    (∀ t f e st', switch_state env fuel st t f = .err e st' → currInv st') := by
  constructor
  · intro t f u st' h
    rw [switch_state_eq] at h
    by_cases h1 : resolveTarget st t = STATE_EXIT
    · rw [if_pos h1] at h
      injection h with _ hst
      rw [← hst]
      refine ⟨currInv_of_coreEq ⟨rfl, rfl, rfl, rfl⟩ hinv, fun _ => rfl, fun hne _ => absurd h1 hne⟩
    · rw [if_neg h1] at h
      by_cases h2 : resolveTarget st t ≠ st.eng.curr_state ∨ f = true
      · rw [if_pos h2] at h
        obtain ⟨hinv', hprev, _⟩ :=
          (switchLoop_inv env fuel (commitSwitch st (resolveTarget st t))
            (resolveTarget st t) rfl).1 u st' h
        refine ⟨hinv', ?_, fun _ _ => hprev⟩
        intro hpre
        rcases hpre with hpre | ⟨hsame, hfo⟩
        · exact absurd hpre h1
        · rcases h2 with hne | hft
          · exact absurd hsame hne
          · rw [hfo] at hft
            exact Bool.noConfusion hft
      · rw [if_neg h2] at h
        injection h with _ hst
        rw [← hst]
        exact ⟨hinv, fun _ => rfl, fun _ hor => absurd hor h2⟩
  · intro t f e st' h
    rw [switch_state_eq] at h
    by_cases h1 : resolveTarget st t = STATE_EXIT
    · rw [if_pos h1] at h
      exact RRes.noConfusion h
    · rw [if_neg h1] at h
      by_cases h2 : resolveTarget st t ≠ st.eng.curr_state ∨ f = true
      · rw [if_pos h2] at h
        exact ((switchLoop_inv env fuel (commitSwitch st (resolveTarget st t))
          (resolveTarget st t) rfl).2 e st' h).1
      · rw [if_neg h2] at h
        exact RRes.noConfusion h

/-! ### C2: the state invariant maintained by switching and execution -/

/-- C2 (amended): whenever control returns (normally or with an error)
from `switch_state` or `execute_action`, `current_state` equals the id
of the most recently entered context, or EXIT, or an id absent from the
context graph (left behind by a failed context lookup); and
`previous_state` equals the state that was current when the most recent
committed transition was requested — it is unchanged by non-committing
calls (EXIT resolution, or an unforced switch to the current state). -/
theorem state_invariant_preserved (env : Env) (fuel : Nat) (st : St) (hinv : currInv st) :
    (∀ t f u st', switch_state env fuel st t f = .ok u st' →
      currInv st' ∧
      (resolveTarget st t = STATE_EXIT ∨
        (resolveTarget st t = st.eng.curr_state ∧ f = false) →
        st'.eng.prev_state = st.eng.prev_state) ∧
      (resolveTarget st t ≠ STATE_EXIT →
        (resolveTarget st t ≠ st.eng.curr_state ∨ f = true) →
        st'.eng.prev_state = st.eng.curr_state)) ∧
    (∀ t f e st', switch_state env fuel st t f = .err e st' → currInv st') ∧
    (∀ act u st', execute_action env fuel st act = .ok u st' → currInv st') ∧
    (∀ act e st', execute_action env fuel st act = .err e st' → currInv st') := by
  refine ⟨(switch_state_inv env fuel st hinv).1, (switch_state_inv env fuel st hinv).2, ?_, ?_⟩
  · intro act u st' h
    unfold execute_action at h
    dsimp only at h
    cases hha : handle_action env st act with
    | ok v st1 =>
      rw [hha] at h
      dsimp only at h
      have hinv1 : currInv st1 :=
        currInv_of_coreEq (coreEq_of_ok (handle_action_core env st act) hha) hinv
      cases hsw : switch_state env fuel st1 act.toId true with
      | ok u2 st2 =>
        rw [hsw] at h
        dsimp only at h
        injection h with _ hst
        rw [← hst]
        exact ((switch_state_inv env fuel st1 hinv1).1 act.toId true u2 st2 hsw).1
      | err e2 st2 =>
        rw [hsw] at h
        dsimp only at h
        have hinv2 : currInv st2 :=
          (switch_state_inv env fuel st1 hinv1).2 act.toId true e2 st2 hsw
        have hinv2L : currInv
            (logEv st2 ("Action failed: " ++ e2 ++ ". Return to previous state.\n")) :=
          currInv_of_coreEq ⟨rfl, rfl, rfl, rfl⟩ hinv2
        exact ((switch_state_inv env fuel _ hinv2L).1 st2.eng.prev_state false u st' h).1
      | panic =>
        rw [hsw] at h
        exact RRes.noConfusion h
      | fuelOut =>
        rw [hsw] at h
        exact RRes.noConfusion h
    | err e st1 =>
      rw [hha] at h
      dsimp only at h
      have hinv1 : currInv st1 :=
        currInv_of_coreEq (coreEq_of_err (handle_action_core env st act) hha) hinv
      have hinv1L : currInv
          (logEv st1 ("Action failed: " ++ e ++ ". Return to previous state.\n")) :=
        currInv_of_coreEq ⟨rfl, rfl, rfl, rfl⟩ hinv1
      exact ((switch_state_inv env fuel _ hinv1L).1 st1.eng.prev_state false u st' h).1
    | panic =>
      rw [hha] at h
      exact RRes.noConfusion h
    | fuelOut =>
      rw [hha] at h
      exact RRes.noConfusion h
  · intro act e st' h
    unfold execute_action at h
    dsimp only at h
    cases hha : handle_action env st act with
    | ok v st1 =>
      rw [hha] at h
      dsimp only at h
      have hinv1 : currInv st1 :=
        currInv_of_coreEq (coreEq_of_ok (handle_action_core env st act) hha) hinv
      cases hsw : switch_state env fuel st1 act.toId true with
      | ok u2 st2 =>
        rw [hsw] at h
        exact RRes.noConfusion h
      | err e2 st2 =>
        rw [hsw] at h
        dsimp only at h
        have hinv2 : currInv st2 :=
          (switch_state_inv env fuel st1 hinv1).2 act.toId true e2 st2 hsw
        have hinv2L : currInv
            (logEv st2 ("Action failed: " ++ e2 ++ ". Return to previous state.\n")) :=
          currInv_of_coreEq ⟨rfl, rfl, rfl, rfl⟩ hinv2
        exact (switch_state_inv env fuel _ hinv2L).2 st2.eng.prev_state false e st' h
      | panic =>
        rw [hsw] at h
        exact RRes.noConfusion h
      | fuelOut =>
        rw [hsw] at h
        exact RRes.noConfusion h
    | err e1 st1 =>
      rw [hha] at h
      dsimp only at h
      have hinv1 : currInv st1 :=
        currInv_of_coreEq (coreEq_of_err (handle_action_core env st act) hha) hinv
      have hinv1L : currInv
          (logEv st1 ("Action failed: " ++ e1 ++ ". Return to previous state.\n")) :=
        currInv_of_coreEq ⟨rfl, rfl, rfl, rfl⟩ hinv1
      exact (switch_state_inv env fuel _ hinv1L).2 st1.eng.prev_state false e st' h
    | panic =>
      rw [hha] at h
      exact RRes.noConfusion h
    | fuelOut =>
      rw [hha] at h
      exact RRes.noConfusion h

/-- C2 (counterexample): starting from a fresh engine over the
one-context graph, entering context 0 and then requesting state 5
returns control with `current_state = 5`, although the only entered
context is 0 and 5 is not EXIT — and with `previous_state = 0`,
although no context was entered before 0 (the claim requires EXIT). -/
theorem state_invariant_cex :
    (switch_state envBase 5 stInit 0 true).currOf = some 0 ∧
    (switch_state envBase 5 stInit 0 true).prevOf = some STATE_EXIT ∧
    (switch_state envBase 5 stInit 0 true).enteredOf = some [0] ∧
    (switch_state envBase 5 stMid 5 false).currOf = some 5 ∧
    (switch_state envBase 5 stMid 5 false).enteredOf = some [0] ∧
    (switch_state envBase 5 stMid 5 false).prevOf = some 0 ∧
    (5 : Nat) ≠ 0 ∧ (5 : Nat) ≠ STATE_EXIT ∧ (0 : Nat) ≠ STATE_EXIT :=
  ⟨rfl, rfl, rfl, rfl, rfl, rfl, by decide, by decide, by decide⟩

/-- C2 (witness): the invariant holds on the fresh state and is carried
through the concrete transition into context 0, whose committed switch
records the old current state (EXIT) as previous. -/
theorem state_invariant_preserved_witness :
    currInv stInit ∧ currInv stMid ∧ stMid.eng.prev_state = stInit.eng.curr_state :=
  have h := (state_invariant_preserved envBase 5 stInit (by decide)).1 0 true () stMid rfl
  ⟨by decide, h.1, h.2.2 (by decide) (Or.inr rfl)⟩

/-! ### C1: the recovery contract of execute_action -/

/-- Presenting actions only appends events. -/
theorem showEv_foldl_mem (ev : BEvent) :
    ∀ (acts : List DAction) (st : St), ev ∈ st.events → ev ∈ (acts.foldl showEv st).events
  | [], _, h => h
  | a :: rest, st, h =>
    showEv_foldl_mem ev rest (showEv st a) (List.mem_cons_of_mem _ h)

/-- Presenting actions leaves the engine fields untouched. -/
theorem showEv_foldl_eng :
    ∀ (acts : List DAction) (st : St), (acts.foldl showEv st).eng = st.eng
  | [], _ => rfl
  | a :: rest, st => showEv_foldl_eng rest (showEv st a)

/-- A queue seeded with a purely interactive action just presents it. -/
theorem procQueue_interactive (env : Env) (a : DAction)
    (ha : a.is_instant = false) (hb : a.is_engine_call = false) (g : Nat) (st : St) :
    procQueue env (g + 1) st [a] = .ok false (showEv st a) := by
  unfold procQueue
  simp only [ha, hb, Bool.false_eq_true, if_false]
  cases g <;> rfl

/-- Context entry over purely interactive actions presents each action
in order and reports no instant switch. -/
theorem enumLoop_interactive (env : Env) :
    ∀ (acts : List DAction) (st : St) (g : Nat),
      (∀ a ∈ acts, a.is_instant = false ∧ a.is_engine_call = false) →
      enumLoop env (g + 1) st acts = .ok false (acts.foldl showEv st)
  | [], _, _, _ => rfl
  | a :: rest, st, g, h => by
    unfold enumLoop
    rw [procQueue_interactive env a (h a (List.mem_cons_self a rest)).1
      (h a (List.mem_cons_self a rest)).2 g st]
    dsimp only
    exact enumLoop_interactive env rest (showEv st a) g
      (fun b hb => h b (List.mem_cons_of_mem a hb))

/-- The switch loop on a target absent from the graph logs "context not
found" and stops, with the absent id left as the current state. -/
theorem switchLoop_notfound (env : Env) (f : Nat) (st : St) (t : Nat)
    (hf : st.eng.state_machine.find? (fun c => c.id == t) = none)
    (ht : t ≠ STATE_EXIT) :
    switchLoop env (f + 1) st t =
      .ok () (logEv st ("Debot context #" ++ toString t ++ " not found. Exit.")) := by
  unfold switchLoop
  rw [hf]
  dsimp only
  rw [if_neg ht]

/-- The switch loop on a context of interactive actions enters it,
presents the actions, and stops. -/
theorem switchLoop_interactive (env : Env) (g : Nat) (st : St) (t : Nat) (ctx : DContext)
    (hf : st.eng.state_machine.find? (fun c => c.id == t) = some ctx)
    (hact : ∀ a ∈ ctx.actions, a.is_instant = false ∧ a.is_engine_call = false) :
    switchLoop env (g + 2) st t =
      .ok () (ctx.actions.foldl showEv (enterEv st t ctx.desc)) := by
  show switchLoop env (g + 1 + 1) st t = _
  unfold switchLoop
  rw [hf]
  dsimp only
  unfold enumerate_actions
  rw [enumLoop_interactive env ctx.actions (enterEv st t ctx.desc) g hact]

/-- C1 (amended): `execute_action` first handles the action; if
handling succeeds it transitions into the declared target with
`force = true` (and passes that result through when the transition
returns normally); on a handling failure it logs the failure and
transitions into `previous_state` with `force = false`. After a failure:
if the pre-call previous state is EXIT, the engine only signals exit
and `current_state` is unchanged; if it is a plain id different from
the current state, `current_state` becomes the pre-call previous state
— even when that id is absent from the context graph, in which case a
"context not found" message is logged (shown here for fallback contexts
whose actions are purely interactive, so that re-entry triggers no
instant switch). -/
theorem execute_action_recovery (env : Env) (fuel : Nat) (st : St) (act : DAction) :
    (∀ v st₁ u st₂, handle_action env st act = .ok v st₁ →
      switch_state env fuel st₁ act.toId true = .ok u st₂ →
      execute_action env fuel st act = .ok u st₂) ∧
    (∀ e st₁, handle_action env st act = .err e st₁ →
      (st.eng.prev_state = STATE_EXIT →
        ∃ st₂, execute_action env fuel st act = .ok () st₂ ∧
          st₂.eng.curr_state = st.eng.curr_state ∧
          BEvent.log ("Action failed: " ++ e ++ ". Return to previous state.\n") ∈
            st₂.events) ∧
      (st.eng.prev_state ≠ STATE_CURRENT → st.eng.prev_state ≠ STATE_PREV →
        st.eng.prev_state ≠ STATE_EXIT → st.eng.prev_state ≠ st.eng.curr_state →
        st.eng.state_machine.find? (fun c => c.id == st.eng.prev_state) = none →
        1 ≤ fuel →
        ∃ st₂, execute_action env fuel st act = .ok () st₂ ∧
          st₂.eng.curr_state = st.eng.prev_state ∧
          BEvent.log ("Action failed: " ++ e ++ ". Return to previous state.\n") ∈
            st₂.events) ∧
      (∀ ctx, st.eng.prev_state ≠ STATE_CURRENT → st.eng.prev_state ≠ STATE_PREV →
        st.eng.prev_state ≠ STATE_EXIT → st.eng.prev_state ≠ st.eng.curr_state →
        st.eng.state_machine.find? (fun c => c.id == st.eng.prev_state) = some ctx →
        (∀ a ∈ ctx.actions, a.is_instant = false ∧ a.is_engine_call = false) →
        2 ≤ fuel →
        ∃ st₂, execute_action env fuel st act = .ok () st₂ ∧
          st₂.eng.curr_state = st.eng.prev_state ∧
          BEvent.log ("Action failed: " ++ e ++ ". Return to previous state.\n") ∈
            st₂.events)) := by
  constructor
  · intro v st₁ u st₂ hha hsw
    unfold execute_action
    dsimp only
    rw [hha]
    dsimp only
    rw [hsw]
  · intro e st₁ hha
    have hc : coreEq st st₁ := coreEq_of_err (handle_action_core env st act) hha
    refine ⟨?_, ?_, ?_⟩
    · intro hp
      have hprev1 : st₁.eng.prev_state = STATE_EXIT := hc.2.1.trans hp
      refine ⟨switchEv (logEv st₁ ("Action failed: " ++ e ++ ". Return to previous state.\n"))
        STATE_EXIT, ?_, ?_, ?_⟩
      · unfold execute_action
        dsimp only
        rw [hha]
        dsimp only
        rw [switch_state_eq]
        have hres : resolveTarget
            (logEv st₁ ("Action failed: " ++ e ++ ". Return to previous state.\n"))
            st₁.eng.prev_state = STATE_EXIT := by
          rw [hprev1]
          rfl
        rw [if_pos hres]
      · exact hc.1
      · show BEvent.log _ ∈ BEvent.switch STATE_EXIT :: BEvent.log _ :: st₁.events
        simp
    · intro h253 h254 hexit hne hfind hfuel
      obtain ⟨f, rfl⟩ : ∃ f, fuel = f + 1 := ⟨fuel - 1, by omega⟩
      refine ⟨logEv
          (commitSwitch (logEv st₁ ("Action failed: " ++ e ++ ". Return to previous state.\n"))
            st.eng.prev_state)
          ("Debot context #" ++ toString st.eng.prev_state ++ " not found. Exit."),
        ?_, rfl, ?_⟩
      · unfold execute_action
        dsimp only
        rw [hha]
        dsimp only
        rw [hc.2.1, switch_state_eq]
        have hres : resolveTarget
            (logEv st₁ ("Action failed: " ++ e ++ ". Return to previous state.\n"))
            st.eng.prev_state = st.eng.prev_state := by
          unfold resolveTarget
          dsimp only
          rw [if_neg h253, if_neg h254]
        rw [hres, if_neg hexit]
        have hcond : st.eng.prev_state ≠
            (logEv st₁ ("Action failed: " ++ e ++ ". Return to previous state.\n")).eng.curr_state := by
          show st.eng.prev_state ≠ st₁.eng.curr_state
          rw [hc.1]
          exact hne
        rw [if_pos (Or.inl hcond)]
        have hfind' : (commitSwitch
            (logEv st₁ ("Action failed: " ++ e ++ ". Return to previous state.\n"))
            st.eng.prev_state).eng.state_machine.find?
              (fun c => c.id == st.eng.prev_state) = none := by
          show st₁.eng.state_machine.find? _ = none
          rw [hc.2.2.1]
          exact hfind
        rw [switchLoop_notfound env f _ _ hfind' hexit]
      · show BEvent.log _ ∈ BEvent.log _ :: BEvent.log _ :: st₁.events
        simp
    · intro ctx h253 h254 hexit hne hfind hact hfuel
      obtain ⟨g, rfl⟩ : ∃ g, fuel = g + 2 := ⟨fuel - 2, by omega⟩
      refine ⟨ctx.actions.foldl showEv
          (enterEv (commitSwitch
            (logEv st₁ ("Action failed: " ++ e ++ ". Return to previous state.\n"))
            st.eng.prev_state) st.eng.prev_state ctx.desc),
        ?_, ?_, ?_⟩
      · unfold execute_action
        dsimp only
        rw [hha]
        dsimp only
        rw [hc.2.1, switch_state_eq]
        have hres : resolveTarget
            (logEv st₁ ("Action failed: " ++ e ++ ". Return to previous state.\n"))
            st.eng.prev_state = st.eng.prev_state := by
          unfold resolveTarget
          dsimp only
          rw [if_neg h253, if_neg h254]
        rw [hres, if_neg hexit]
        have hcond : st.eng.prev_state ≠
            (logEv st₁ ("Action failed: " ++ e ++ ". Return to previous state.\n")).eng.curr_state := by
          show st.eng.prev_state ≠ st₁.eng.curr_state
          rw [hc.1]
          exact hne
        rw [if_pos (Or.inl hcond)]
        have hfind' : (commitSwitch
            (logEv st₁ ("Action failed: " ++ e ++ ". Return to previous state.\n"))
            st.eng.prev_state).eng.state_machine.find?
              (fun c => c.id == st.eng.prev_state) = some ctx := by
          show st₁.eng.state_machine.find? _ = some ctx
          rw [hc.2.2.1]
          exact hfind
        rw [switchLoop_interactive env g _ _ ctx hfind' hact]
      · rw [showEv_foldl_eng]
        rfl
      · refine showEv_foldl_mem _ ctx.actions _ ?_
        show BEvent.log _ ∈
          BEvent.log ctx.desc :: BEvent.switch st.eng.prev_state :: BEvent.log _ :: st₁.events
        simp

/-- C1 (counterexample): a failing action executed right after `start`
(previous state EXIT) leaves `current_state` at 0, not at the pre-call
previous state; and with an absent previous state 7, the failing action
leaves `current_state` pointing at 7, an id absent from the context
graph — both contradicting the claim's closing sentence. -/
theorem execute_action_fallback_cex :
    (handle_action envBase stC1a actU).isErr = true ∧
    (execute_action envBase 10 stC1a actU).isOk = true ∧
    (execute_action envBase 10 stC1a actU).currOf = some 0 ∧
    stC1a.eng.prev_state = STATE_EXIT ∧ (0 : Nat) ≠ STATE_EXIT ∧
    (execute_action envBase 10 stC1b actU).isOk = true ∧
    (execute_action envBase 10 stC1b actU).currOf = some 7 ∧
    stC1b.eng.prev_state = 7 ∧
    (∀ c ∈ stC1b.eng.state_machine, c.id ≠ 7) :=
  ⟨rfl, rfl, rfl, rfl, by decide, rfl, rfl, rfl, by decide⟩

/-- C1 (witness): the success half of the recovery contract at a
concrete Goto action — handling succeeds and the engine forces entry
into the declared target state 0. -/
theorem execute_action_recovery_witness :
    execute_action envBase 5 stC1a actGoto = .ok () stGotoAfter :=
  (execute_action_recovery envBase 5 stC1a actGoto).1 none stC1a () stGotoAfter rfl rfl
